import Mathlib

/-!
Verification development for the `chatty` repository: a shallow embedding of
the agent kernel (`internal/kernel.py`), the agent store
(`internal/agent_manager.py`), the tool gateway (`internal/agent_gateway.py`),
the tool-server manager (`internal/mcp_manager.py`) and the sandbox
dependency pre-processor (`internal/code_executor.py`), together with
theorems settling the specification claims about them.
-/

namespace Chatty

/-- A single ASCII apostrophe, used when building Python error strings. -/
def sq : String := String.singleton (Char.ofNat 39)

/-- JSON values, as produced by Python `json.loads` in the sources.
Numbers are modelled as integers (the claims never involve fractions). -/
inductive Json where
  | null : Json
  | bool (b : Bool) : Json
  | num (n : Int) : Json
  | str (s : String) : Json
  | arr (items : List Json) : Json
  | obj (fields : List (String × Json)) : Json
  deriving Repr

mutual

/-- Structural equality on `Json` (Python `==` on parsed JSON values). -/
def Json.beq : Json → Json → Bool
  | .null, .null => true
  | .bool a, .bool b => a == b
  | .num a, .num b => a == b
  | .str a, .str b => a == b
  | .arr a, .arr b => Json.beqList a b
  | .obj a, .obj b => Json.beqFields a b
  | _, _ => false

def Json.beqList : List Json → List Json → Bool
  | [], [] => true
  | a :: as, b :: bs => Json.beq a b && Json.beqList as bs
  | _, _ => false

def Json.beqFields : List (String × Json) → List (String × Json) → Bool
  | [], [] => true
  | (ka, va) :: as, (kb, vb) :: bs => ka == kb && Json.beq va vb && Json.beqFields as bs
  | _, _ => false

end

instance : BEq Json := ⟨Json.beq⟩

/-- `d.get(k)` on a Python dict represented as an ordered association list:
the value of the first matching key, if any. -/
def objGet (fields : List (String × Json)) (k : String) : Option Json :=
  match fields with
  | [] => none
  | (k0, v) :: rest => if k0 = k then some v else objGet rest k

/-- `k in d` on a Python dict represented as an association list. -/
def objHas (fields : List (String × Json)) (k : String) : Bool :=
  (objGet fields k).isSome

/-- Kernel error-result envelope `{"status": "error", "error": msg}`
(`internal/kernel.py`, `_execute_tool_calls`). -/
def errEnvelope (msg : String) : List (String × Json) :=
  [("status", Json.str "error"), ("error", Json.str msg)]

/-- Kernel success-result envelope `{"status": "success", "output": out}`
(`internal/kernel.py`, `_execute_tool_calls`). -/
def successEnvelope (out : Json) : List (String × Json) :=
  [("status", Json.str "success"), ("output", out)]

/-!
Section: Python string helpers shared by the embeddings
-/

/-- ASCII whitespace, the characters Python treats as whitespace in
`str.strip()` and `\s` of the `re` module (unicode whitespace beyond ASCII
is not modelled). -/
def isPyWs (c : Char) : Bool :=
  c = ' ' || c = '\t' || c = '\n' || c = '\r' || c = Char.ofNat 11 || c = Char.ofNat 12

/-- Leading-whitespace split: the maximal whitespace prefix and the rest. -/
def spanWs (cs : List Char) : List Char × List Char :=
  match cs with
  | [] => ([], [])
  | c :: rest =>
    if isPyWs c then
      let (w, r) := spanWs rest
      (c :: w, r)
    else ([], cs)

/-- Python `str.strip()` on a character list. -/
def stripChars (cs : List Char) : List Char :=
  ((spanWs ((spanWs cs).2.reverse)).2).reverse

/-- Python `str.strip()`. -/
def pyStrip (s : String) : String :=
  (stripChars s.data).asString

/-- `str.startswith(pre)` on character lists. -/
def stripPrefixChars (pre : List Char) (cs : List Char) : Option (List Char) :=
  match pre, cs with
  | [], rest => some rest
  | _ :: _, [] => none
  | p :: ps, c :: rest => if p = c then stripPrefixChars ps rest else none

/-- Python `str.startswith`. -/
def strStartsWith (s pre : String) : Bool :=
  (stripPrefixChars pre.data s.data).isSome

/-- Python slicing `s[n:]`. -/
def strDrop (s : String) (n : Nat) : String :=
  (s.data.drop n).asString

/-- ASCII lowering of one character. -/
def asciiLower (c : Char) : Char :=
  if 'A' ≤ c && c ≤ 'Z' then Char.ofNat (c.toNat + 32) else c

/-- Python `str.lower()` (ASCII; no claim exercises non-ASCII case
folding). -/
def strLower (s : String) : String :=
  (s.data.map asciiLower).asString

/-- One lowercase hexadecimal digit. -/
def hexDigit (n : Nat) : Char :=
  if n < 10 then Char.ofNat (48 + n) else Char.ofNat (97 + (n - 10))

/-- Four lowercase hexadecimal digits, as in Python `json.dumps` `\uXXXX`. -/
def hex4 (n : Nat) : String :=
  String.mk [hexDigit (n / 4096 % 16), hexDigit (n / 256 % 16),
             hexDigit (n / 16 % 16), hexDigit (n % 16)]

/-- Escaping of one character inside a JSON string literal as done by
Python `json.dumps` with its default `ensure_ascii=True`. -/
def jsonEscapeChar (c : Char) : String :=
  if c = '"' then "\\\""
  else if c = '\\' then "\\\\"
  else if c = '\n' then "\\n"
  else if c = '\t' then "\\t"
  else if c = '\r' then "\\r"
  else if c = Char.ofNat 8 then "\\b"
  else if c = Char.ofNat 12 then "\\f"
  else if c.val < 32 || c.val > 126 then
    if c.val ≤ 65535 then "\\u" ++ hex4 c.toNat
    else
      -- astral characters become a surrogate pair
      let v := c.toNat - 65536
      "\\u" ++ hex4 (55296 + v / 1024) ++ "\\u" ++ hex4 (56320 + v % 1024)
  else String.singleton c

/-- A JSON string literal as rendered by Python `json.dumps`. -/
def jsonQuote (s : String) : String :=
  "\"" ++ String.join (s.data.map jsonEscapeChar) ++ "\""

mutual

/-- Python `repr()` of a parsed-JSON value (used by `str()` on lists and
dicts). String escaping inside `repr` is simplified to backslash and
quote doubling, which is exact for the strings arising in the claims. -/
def pyRepr : Json → String
  | .null => "None"
  | .bool true => "True"
  | .bool false => "False"
  | .num n => toString n
  | .str s =>
    sq ++ String.join (s.data.map (fun c =>
      if c = '\\' then "\\\\"
      else if c = Char.ofNat 39 then "\\" ++ sq
      else String.singleton c)) ++ sq
  | .arr items => "[" ++ pyReprJoin items ++ "]"
  | .obj fields => "\x7b" ++ pyReprFields fields ++ "\x7d"

def pyReprJoin : List Json → String
  | [] => ""
  | [x] => pyRepr x
  | x :: rest => pyRepr x ++ ", " ++ pyReprJoin rest

def pyReprFields : List (String × Json) → String
  | [] => ""
  | [(k, v)] => pyRepr (.str k) ++ ": " ++ pyRepr v
  | (k, v) :: rest => pyRepr (.str k) ++ ": " ++ pyRepr v ++ ", " ++ pyReprFields rest

end

/-- Python `str()` of a parsed-JSON value (the gateway normalization uses
`str(raw_result)`). -/
def pyStr : Json → String
  | .null => "None"
  | .bool true => "True"
  | .bool false => "False"
  | .num n => toString n
  | .str s => s
  | v => pyRepr v

/-- A run of `n` spaces. -/
def spaces (n : Nat) : String :=
  String.mk (List.replicate n ' ')

mutual

/-- Python `json.dumps(v, indent=2)` (with its implied separators
`(",", ": ")` and `ensure_ascii=True`). -/
def pyDumps2 (level : Nat) : Json → String
  | .null => "null"
  | .bool true => "true"
  | .bool false => "false"
  | .num n => toString n
  | .str s => jsonQuote s
  | .arr [] => "[]"
  | .arr (x :: rest) =>
    "[\n" ++ String.intercalate ",\n" (pyDumps2Items (level + 1) (x :: rest)) ++
      "\n" ++ spaces (2 * level) ++ "]"
  | .obj [] => "\x7b\x7d"
  | .obj (f :: rest) =>
    "\x7b\n" ++ String.intercalate ",\n" (pyDumps2Fields (level + 1) (f :: rest)) ++
      "\n" ++ spaces (2 * level) ++ "\x7d"

/-- The indented renderings of the items of an array. -/
def pyDumps2Items (level : Nat) : List Json → List String
  | [] => []
  | x :: rest => (spaces (2 * level) ++ pyDumps2 level x) :: pyDumps2Items level rest

/-- The indented renderings of the members of an object. -/
def pyDumps2Fields (level : Nat) : List (String × Json) → List String
  | [] => []
  | (k, v) :: rest =>
    (spaces (2 * level) ++ jsonQuote k ++ ": " ++ pyDumps2 level v) :: pyDumps2Fields level rest

end

/-!
Section: `json.loads` (a parser for the modelled JSON values)

The number grammar is restricted to integers: fractional and exponent
notation, which none of the claims exercise, is rejected.
-/

/-- Whitespace skipped by Python `json.loads` between tokens. -/
def isJsonWs (c : Char) : Bool :=
  c = ' ' || c = '\t' || c = '\n' || c = '\r'

/-- Drop JSON inter-token whitespace. -/
def skipJsonWs (cs : List Char) : List Char :=
  match cs with
  | c :: rest => if isJsonWs c then skipJsonWs rest else cs
  | [] => []

/-- Hex digit value, if any. -/
def hexVal (c : Char) : Option Nat :=
  if '0' ≤ c && c ≤ '9' then some (c.toNat - 48)
  else if 'a' ≤ c && c ≤ 'f' then some (c.toNat - 87)
  else if 'A' ≤ c && c ≤ 'F' then some (c.toNat - 55)
  else none

/-- Body of a JSON string literal after the opening quote. -/
def parseJsonString (fuel : Nat) (cs : List Char) : Except String (String × List Char) :=
  match fuel with
  | 0 => .error "Unterminated string"
  | fuel + 1 =>
    match cs with
    | [] => .error "Unterminated string starting at"
    | '"' :: rest => .ok ("", rest)
    | '\\' :: esc :: rest =>
      let cont (c : Char) (r : List Char) : Except String (String × List Char) := do
        let (s, r2) ← parseJsonString fuel r
        .ok (String.singleton c ++ s, r2)
      if esc = '"' then cont '"' rest
      else if esc = '\\' then cont '\\' rest
      else if esc = '/' then cont '/' rest
      else if esc = 'n' then cont '\n' rest
      else if esc = 't' then cont '\t' rest
      else if esc = 'r' then cont '\r' rest
      else if esc = 'b' then cont (Char.ofNat 8) rest
      else if esc = 'f' then cont (Char.ofNat 12) rest
      else if esc = 'u' then
        match rest with
        | h1 :: h2 :: h3 :: h4 :: r =>
          match hexVal h1, hexVal h2, hexVal h3, hexVal h4 with
          | some a, some b, some c, some d =>
            cont (Char.ofNat (a * 4096 + b * 256 + c * 16 + d)) r
          | _, _, _, _ => .error "Invalid \\uXXXX escape"
        | _ => .error "Invalid \\uXXXX escape"
      else .error "Invalid \\escape"
    | c :: rest =>
      if c.val < 32 then .error "Invalid control character"
      else do
        let (s, r2) ← parseJsonString fuel rest
        .ok (String.singleton c ++ s, r2)

/-- A digit run read as a natural number. -/
def parseDigits (fuel : Nat) (acc : Nat) (cs : List Char) : Nat × List Char :=
  match fuel, cs with
  | fuel + 1, c :: rest =>
    if '0' ≤ c && c ≤ '9' then parseDigits fuel (acc * 10 + (c.toNat - 48)) rest
    else (acc, cs)
  | _, _ => (acc, cs)

mutual

/-- One JSON value, returning the remainder of the input. -/
def parseJsonValue (fuel : Nat) (cs : List Char) : Except String (Json × List Char) :=
  match fuel with
  | 0 => .error "Expecting value"
  | fuel + 1 =>
    match skipJsonWs cs with
    | 'n' :: 'u' :: 'l' :: 'l' :: rest => .ok (.null, rest)
    | 't' :: 'r' :: 'u' :: 'e' :: rest => .ok (.bool true, rest)
    | 'f' :: 'a' :: 'l' :: 's' :: 'e' :: rest => .ok (.bool false, rest)
    | '"' :: rest => do
      let (s, r) ← parseJsonString fuel rest
      .ok (.str s, r)
    | '[' :: rest =>
      (match skipJsonWs rest with
       | ']' :: r => .ok (.arr [], r)
       | r => do
         let (items, r2) ← parseJsonItems fuel r
         .ok (.arr items, r2))
    | '\x7b' :: rest =>
      (match skipJsonWs rest with
       | '\x7d' :: r => .ok (.obj [], r)
       | r => do
         let (fields, r2) ← parseJsonFields fuel r
         .ok (.obj fields, r2))
    | '-' :: c :: rest =>
      if '0' ≤ c && c ≤ '9' then
        if c = '0' then .ok (.num 0, rest)
        else
          let (n, r) := parseDigits fuel (c.toNat - 48) rest
          .ok (.num (-(n : Int)), r)
      else .error "Expecting value"
    | c :: rest =>
      if '0' ≤ c && c ≤ '9' then
        if c = '0' then .ok (.num 0, rest)
        else
          let (n, r) := parseDigits fuel (c.toNat - 48) rest
          .ok (.num (n : Int), r)
      else .error "Expecting value"
    | [] => .error "Expecting value"

/-- Comma-separated array items after a first non-`]` token. -/
def parseJsonItems (fuel : Nat) (cs : List Char) : Except String (List Json × List Char) :=
  match fuel with
  | 0 => .error "Expecting value"
  | fuel + 1 => do
    let (v, r) ← parseJsonValue fuel cs
    match skipJsonWs r with
    | ',' :: r2 => do
      let (items, r3) ← parseJsonItems fuel r2
      .ok (v :: items, r3)
    | ']' :: r2 => .ok ([v], r2)
    | _ => .error "Expecting comma delimiter"

/-- Comma-separated object members after a first non-`}` token. -/
def parseJsonFields (fuel : Nat) (cs : List Char) :
    Except String (List (String × Json) × List Char) :=
  match fuel with
  | 0 => .error "Expecting value"
  | fuel + 1 =>
    match skipJsonWs cs with
    | '"' :: r => do
      let (k, r2) ← parseJsonString fuel r
      match skipJsonWs r2 with
      | ':' :: r3 => do
        let (v, r4) ← parseJsonValue fuel r3
        match skipJsonWs r4 with
        | ',' :: r5 => do
          let (fields, r6) ← parseJsonFields fuel r5
          .ok ((k, v) :: fields, r6)
        | '\x7d' :: r5 => .ok ([(k, v)], r5)
        | _ => .error "Expecting comma delimiter"
      | _ => .error "Expecting colon delimiter"
    | _ => .error "Expecting property name"

end

/-- Python `json.loads`: one JSON document, trailing non-whitespace is an
error ("Extra data"). Error texts are abbreviated relative to Python. -/
def jsonLoads (s : String) : Except String Json := do
  let (v, rest) ← parseJsonValue (s.length + 1) s.data
  match skipJsonWs rest with
  | [] => .ok v
  | _ => .error "Extra data"

/-!
Section: `Kernel._resolve_argument_references` (internal/kernel.py, lines 209-228)

The map `results_by_id` relates a call id (any JSON value, since
`call.get("call_id", ...)` is used unchecked as a dict key) to the recorded
result dict of that call.  A Python dict with latest-assignment-wins lookup
is modelled as an association list extended at the front.
-/

/-- The type of `call_results_by_id`: call id, mapped to the recorded result
object. Entries are consed at the front; lookup takes the first match. -/
abbrev ResultsById := List (Json × List (String × Json))

/-- Lookup in `results_by_id` by a (string) reference id. -/
def resultsLookup (m : ResultsById) (refId : String) : Option (List (String × Json)) :=
  match m with
  | [] => none
  | (k, v) :: rest => if (k == Json.str refId) then some v else resultsLookup rest refId

mutual

/-- `Kernel._resolve_argument_references`: walk the argument dict; a string
value starting with `$` is replaced by the `output` field of the referenced
prior result (`results_by_id[ref_id].get("output")`, `None` when absent);
a dict value is resolved recursively; inside a list value, only dict items
are resolved recursively and every other item is kept unchanged. An unknown
reference raises `ValueError` (modelled with `Except`). -/
def resolveArgumentReferences (args : List (String × Json)) (m : ResultsById) :
    Except String (List (String × Json)) :=
  match args with
  | [] => .ok []
  | (key, value) :: rest => do
    let v ← resolveOneValue value m
    let r ← resolveArgumentReferences rest m
    .ok ((key, v) :: r)

/-- Resolution of one dict value (the body of the `for key, value` loop). -/
def resolveOneValue (value : Json) (m : ResultsById) : Except String Json :=
  match value with
  | .str s =>
    if strStartsWith s "$" then
      let refId := strDrop s 1
      match resultsLookup m refId with
      | none => .error ("Invalid reference: Tool result for " ++ sq ++ refId ++ sq ++ " not found.")
      | some result =>
        -- We replace the arg with the 'output' part of the result
        .ok ((objGet result "output").getD Json.null)
    else .ok (.str s)
  | .obj fields => do
    let r ← resolveArgumentReferences fields m
    .ok (.obj r)
  | .arr items => do
    let r ← resolveListItems items m
    .ok (.arr r)
  | v => .ok v

/-- The list comprehension: dict items are resolved, all other items
(including strings and nested lists) pass through unchanged. -/
def resolveListItems (items : List Json) (m : ResultsById) : Except String (List Json) :=
  match items with
  | [] => .ok []
  | item :: rest => do
    let v ← (match item with
             | .obj fields => do
               let r ← resolveArgumentReferences fields m
               (.ok (.obj r) : Except String Json)
             | other => .ok other)
    let r ← resolveListItems rest m
    .ok (v :: r)

end

/-- Whether a JSON value is an object (a Python dict). -/
def Json.isObj : Json → Bool
  | .obj _ => true
  | _ => false

/-- Access to a nested value through object fields only: `getObjPath [a, b]
args` is `args[a][b]` when every intermediate value is an object. -/
def getObjPath : List String → List (String × Json) → Option Json
  | [], _ => none
  | [k], args => objGet args k
  | k :: rest, args =>
    match objGet args k with
    | some (.obj fs) => getObjPath rest fs
    | _ => none

mutual

/-- The reference ids the resolver would try to look up: `$`-prefixed
strings at dict-value positions, descending through nested dicts and
through dict items of lists (exactly the positions
`_resolve_argument_references` inspects). -/
def refsOfArgs : List (String × Json) → List String
  | [] => []
  | (_, v) :: rest => refsOfValue v ++ refsOfArgs rest

/-- Reference ids inspected within one dict value. -/
def refsOfValue : Json → List String
  | .str s => if strStartsWith s "$" then [strDrop s 1] else []
  | .obj fs => refsOfArgs fs
  | .arr items => refsOfItems items
  | _ => []

/-- Reference ids inspected within a list value: only dict items are
descended into. -/
def refsOfItems : List Json → List String
  | [] => []
  | .obj fs :: rest => refsOfArgs fs ++ refsOfItems rest
  | _ :: rest => refsOfItems rest

end

/-!
Section: Agent store (internal/agent_manager.py)
-/

/-- `AgentStatus` (internal/agent_manager.py, lines 9-15). -/
inductive AgentStatus where
  | ready | running | waiting | done | error
  deriving DecidableEq, Repr

/-- One history message `{"role": ..., "content": ...}`. -/
structure Msg where
  role : String
  content : String
  deriving DecidableEq, Repr

/-- The slice of `AgentContext` the claims observe (id, role, result and
parent link play no part in any claim). -/
structure Agent where
  history : List Msg
  status : AgentStatus
  isMain : Bool
  deriving Repr

/-- The history built by `AgentManager.create_agent` (lines 40-42): a system
message first, then the initial user prompt when it is non-empty (Python
truthiness of `initial_prompt`). -/
def createAgentHistory (systemPrompt initialPrompt : String) : List Msg :=
  { role := "system", content := systemPrompt } ::
    (if initialPrompt ≠ "" then [{ role := "user", content := initialPrompt }] else [])

/-!
Section: Agent kernel (internal/kernel.py)

External collaborators of the kernel are oracle parameters: the LLM
transport answer, the UI confirmation, and the tool dispatch (the in-process
implementation table, the `spawn_agent` special case and the MCP dispatch of
lines 172-194, which all produce either an output value or an exception
message that becomes an error envelope).
-/

/-- What the dispatch of one confirmed tool call produces: an output value
(`result = {"status": "success", "output": output}`) or an exception message
(`result = {"status": "error", "error": str(e)}`). -/
inductive DispatchResult where
  | success (output : Json)
  | failure (msg : String)

/-- Answer of the streaming LLM transport (`_call_llm_stream`): a complete
response, a user interrupt with the partial text accumulated so far, or a
`requests.RequestException` (on which the source calls `sys.exit(1)`). -/
inductive StreamAnswer where
  | ok (text : String)
  | interrupted (textSoFar : String)
  | transportError (msg : String)

/-- Answer of the non-streaming LLM transport (`_call_llm_non_stream`): a
complete response or a `requests.RequestException`. -/
inductive NonStreamAnswer where
  | ok (text : String)
  | transportError (msg : String)

/-- The kernel's environment for one turn: configuration plus the oracles
for its collaborators. -/
structure KernelEnv where
  /-- `system_prompt_generator()` for this turn. -/
  systemPrompt : String
  /-- the `streaming` configuration flag. -/
  streaming : Bool
  streamAns : StreamAnswer
  nonStreamAns : NonStreamAnswer
  /-- `ui.confirm_action(...)`, given the call fields and the resolved
  arguments (which determine the displayed details). -/
  confirm : List (String × Json) → List (String × Json) → Bool
  /-- dispatch of a named tool with resolved arguments (in-process table,
  MCP map and unknown-name `KeyError` combined). -/
  dispatch : String → List (String × Json) → DispatchResult

/-- One element of the `results` list: `{"call_id": ..., "result": ...}`. -/
structure ExecEntry where
  callId : Json
  result : List (String × Json)
  deriving Repr

/-- Outcome of `_execute_tool_calls`: the results list, the agent status and
the call-id counter after the batch, or an uncaught `AttributeError` (from
`call.get` on a non-dict call, or `args.items()` on non-dict arguments,
neither of which the source catches). -/
inductive ExecOutcome where
  | ok (entries : List ExecEntry) (st : AgentStatus) (ctr : Nat)
  | raised (msg : String)
  deriving Repr

/-- Outcome of one iteration of the loop of `_execute_tool_calls`: the
`{call_id, result}` record appended to `results` (and recorded in
`call_results_by_id`), the agent status and the id counter after the
iteration — or an uncaught `AttributeError` (from `call.get` on a non-dict
call, or `args.items()` on non-dict arguments, neither of which the source
catches). -/
inductive StepOutcome where
  | ok (entry : ExecEntry) (st : AgentStatus) (ctr : Nat)
  | raised (msg : String)
  deriving Repr

/-- The body of the `for call in tool_calls` loop of `_execute_tool_calls`
(lines 143-205). `st` is the agent status, `ctr` the
`_tool_call_id_counter`, `m` the accumulated `call_results_by_id`. -/
def execStep (env : KernelEnv) (st : AgentStatus) (ctr : Nat) (m : ResultsById)
    (call : Json) : StepOutcome :=
  match call with
  | .obj fields =>
    let toolName := objGet fields "tool_name"
    let toolArgs := (objGet fields "arguments").getD (.obj [])
    -- the default argument `self._get_next_tool_call_id()` of `call.get`
    -- is evaluated eagerly, so the counter advances for every call
    let ctr2 := ctr + 1
    let callId := (objGet fields "call_id").getD (.str ("call_" ++ toString ctr2))
    match toolArgs with
    | .obj argFields =>
      (match resolveArgumentReferences argFields m with
       | .error e => .ok { callId := callId, result := errEnvelope e } st ctr2
       | .ok resolvedArgs =>
         match toolName with
         | some (.str "wait_for_agents") =>
           -- does not dispatch; sets WAITING; records a success envelope;
           -- `continue`s with the remaining calls of the batch
           .ok { callId := callId,
                 result := successEnvelope
                   (.str "Agent is now waiting for sub-agents to complete.") }
             .waiting ctr2
         | _ =>
           let result :=
             if env.confirm fields resolvedArgs then
               match toolName with
               | some (.str name) =>
                 if name = "" then
                   -- `raise ValueError(...)` caught by `except Exception`
                   errEnvelope "Tool name is missing or invalid in the tool call."
                 else
                   match env.dispatch name resolvedArgs with
                   | .success out => successEnvelope out
                   | .failure e => errEnvelope e
               | _ => errEnvelope "Tool name is missing or invalid in the tool call."
             else errEnvelope "Tool execution was declined by the user."
           .ok { callId := callId, result := result } st ctr2)
    | _ => .raised "AttributeError: arguments value has no attribute items"
  | _ => .raised "AttributeError: tool call record is not a dict"

/-- `Kernel._execute_tool_calls` (lines 138-207): the loop over the batch,
threading status, counter and `call_results_by_id` and collecting the
`results` list. -/
def executeToolCalls (env : KernelEnv) (st : AgentStatus) (ctr : Nat) (m : ResultsById) :
    List Json → ExecOutcome
  | [] => .ok [] st ctr
  | call :: rest =>
    match execStep env st ctr m call with
    | .raised msg => .raised msg
    | .ok entry st2 ctr2 =>
      match executeToolCalls env st2 ctr2 ((entry.callId, entry.result) :: m) rest with
      | .ok es stf ctrf => .ok (entry :: es) stf ctrf
      | .raised msg => .raised msg

/-- Modelled from the spec: `TOOL_TAG_START` is imported by
`internal/kernel.py` from `internal/agent_prompt.py`, but no source file
under src/ defines it; the spec fixes the default start tag `<tool>`. -/
def TOOL_TAG_START : String := "<tool>"

/-- Modelled from the spec: `TOOL_TAG_END` is imported by
`internal/kernel.py` from `internal/agent_prompt.py`, but no source file
under src/ defines it; the spec fixes the default end tag `</tool>`. -/
def TOOL_TAG_END : String := "</tool>"

/-- First occurrence of `pat` inside `cs`: the part before it and the part
after it. -/
def findSub (pat : List Char) : List Char → Option (List Char × List Char)
  | [] => (match stripPrefixChars pat [] with
           | some rest => some ([], rest)
           | none => none)
  | c :: rest =>
    match stripPrefixChars pat (c :: rest) with
    | some after => some ([], after)
    | none =>
      match findSub pat rest with
      | some (before, after) => some (c :: before, after)
      | none => none

/-- The leftmost match of the pattern `START(.*?)END` (with `re.DOTALL`):
at the first occurrence of the start tag that is followed by the end tag,
the shortest enclosed content. -/
def findTagContent (startTag endTag : List Char) : List Char → Option (List Char)
  | [] => none
  | c :: rest =>
    match stripPrefixChars startTag (c :: rest) with
    | some afterStart =>
      (match findSub endTag afterStart with
       | some (content, _) => some content
       | none => findTagContent startTag endTag rest)
    | none => findTagContent startTag endTag rest

/-- `Kernel._extract_tool_content` (lines 234-237): the stripped interior of
the first `<tool>...</tool>` region, if any. -/
def extractToolContent (responseText : String) : Option String :=
  (findTagContent TOOL_TAG_START.data TOOL_TAG_END.data responseText.data).map
    (fun cs => (stripChars cs).asString)

/-- Outcome of `Kernel.run_turn`: a normal return with the updated agent and
counter, `sys.exit(code)`, or an uncaught exception. -/
inductive TurnResult where
  | returned (a : Agent) (ctr : Nat)
  | exited (code : Nat)
  | raised (msg : String)
  deriving Repr

/-- Lines 49-50 of `run_turn`: refresh the content of the leading system
message from the system-prompt generator, leaving everything else alone. -/
def refreshSystemHead (sp : String) (h : List Msg) : List Msg :=
  match h with
  | m :: rest => if m.role = "system" then { role := m.role, content := sp } :: rest else m :: rest
  | [] => []

/-- The results list rendered for the feedback message:
`json.dumps(tool_results, indent=2)` of the `{call_id, result}` records. -/
def entriesToJson (entries : List ExecEntry) : Json :=
  .arr (entries.map (fun e => .obj [("call_id", e.callId), ("result", .obj e.result)]))

/-- `Kernel.run_turn` (internal/kernel.py, lines 44-86). The status is set
to RUNNING on entry and rewritten on every return path reached below; a
`raised` outcome leaves the agent unobserved (the exception propagates). -/
def runTurn (env : KernelEnv) (agent : Agent) (ctr : Nat) : TurnResult :=
  let h0 := refreshSystemHead env.systemPrompt agent.history
  match (if env.streaming && agent.isMain then
           match env.streamAns with
           | .ok t => some (t, false)
           | .interrupted p => some (p, true)
           | .transportError _ => none          -- logging.critical, sys.exit(1)
         else
           match env.nonStreamAns with
           | .ok t => some (t, false)
           | .transportError e => some ("Error: Could not contact LLM. " ++ e, false)) with
  | none => .exited 1
  | some (responseText, interrupted) =>
    if interrupted then
      .returned { agent with history := h0, status := .done } ctr
    else
      let noBlock : TurnResult :=
        .returned { agent with
                    history := h0 ++ [{ role := "assistant", content := responseText }],
                    status := .done } ctr
      match extractToolContent responseText with
      | none => noBlock
      | some tc =>
        if tc = "" then noBlock     -- `if not tool_content:` on the empty string
        else
          let h1 := h0 ++ [{ role := "assistant",
                             content := TOOL_TAG_START ++ "\n" ++ tc ++ "\n" ++ TOOL_TAG_END }]
          let parseErr (e : String) : TurnResult :=
            let errorMessage :=
              "Error: Invalid tool format. Expected a JSON list within <tool> tags. Parser error: " ++ e
            .returned { agent with
                        history := h1 ++ [{ role := "user",
                                            content := "TOOL_EXECUTION_RESULT:\n" ++ errorMessage }],
                        status := .ready } ctr
          match jsonLoads tc with
          | .error e => parseErr e
          | .ok (.arr calls) =>
            (match executeToolCalls env .running ctr [] calls with
             | .raised msg => .raised msg
             | .ok entries st ctr2 =>
               let feedbackMsg :=
                 "TOOL_EXECUTION_RESULT:\n```json\n" ++ pyDumps2 0 (entriesToJson entries) ++ "\n```"
               .returned { agent with
                           history := h1 ++ [{ role := "user", content := feedbackMsg }],
                           status := if st = .waiting then .waiting else .ready } ctr2)
          | .ok _ => parseErr "Tool content is not a JSON list."

/-!
Section: Tool gateway (internal/agent_gateway.py)

The HTTP transport (headers, body decoding) is abstracted: the handler is
modelled on the request path and the raw request body. Tool
implementations are oracles returning either a value or a raised Python
exception, classified by its type as the handler's `except` clauses do.
-/

/-- The exception classes the gateway's `except` clauses distinguish. -/
inductive ExcKind where
  | typeError | valueError | keyError | other
  deriving DecidableEq, Repr

/-- What calling a tool implementation produces. -/
inductive ImplOutcome where
  | ok (v : Json)
  | raises (k : ExcKind) (msg : String)

/-- The gateway's collaborators (`UnifiedRequestHandler` class attributes):
the MCP manager (its truthiness, its `_tool_to_server_map` membership and
its `dispatch_tool_call`, which returns `None` on failure) and the internal
implementation table. -/
structure GatewayEnv where
  mcpManagerPresent : Bool
  mcpServes : String → Bool
  mcpDispatch : String → Json → Option Json
  internalImpl : String → Option (List (String × Json) → ImplOutcome)

/-- Outcome of one request: a response with status code and JSON payload,
or an exception escaping `do_POST` (no response is written then). -/
inductive HttpOutcome where
  | response (code : Nat) (body : Json)
  | uncaught (msg : String)
  deriving Repr

/-- The normalization of a plain internal-tool value into an MCP-style
envelope (agent_gateway.py, line 30). -/
def normalizePlain (raw : Json) : Json :=
  .obj [("content", .arr [.obj [("type", .str "text"), ("text", .str (pyStr raw))]]),
        ("isError", .bool false)]

/-- The error responses produced by the three `except` clauses of
`do_POST`, keyed by the exception class alone. -/
def excResponse (k : ExcKind) (msg : String) (toolNameDisplay : String) : HttpOutcome :=
  match k with
  | .typeError | .valueError =>
    .response 400 (.obj [("status", .str "error"), ("type", .str "INVALID_TOOL_ARGUMENTS"),
      ("message", .str ("Invalid arguments for " ++ sq ++ toolNameDisplay ++ sq ++ ": " ++ msg))])
  | .keyError =>
    .response 404 (.obj [("status", .str "error"), ("type", .str "TOOL_NOT_FOUND"),
      ("message", .str ("Tool " ++ sq ++ toolNameDisplay ++ sq ++ " not found."))])
  | .other =>
    .response 500 (.obj [("status", .str "error"), ("type", .str "TOOL_EXECUTION_ERROR"),
      ("message", .str msg)])

/-- `UnifiedRequestHandler.do_POST` (agent_gateway.py, lines 14-44). -/
def doPOST (env : GatewayEnv) (path : String) (body : String) : HttpOutcome :=
  if path ≠ "/mcp_tool_call" then
    .response 404 (.obj [("status", .str "error"), ("message", .str "Endpoint not found.")])
  else
    match jsonLoads body with
    | .error _ =>
      -- json.loads raises JSONDecodeError (a ValueError); the except clause
      -- then evaluates an f-string naming the still-unbound local
      -- `tool_name` and raises NameError, which escapes the handler
      .uncaught "NameError: name tool_name is not defined"
    | .ok postData =>
      match postData with
      | .obj fields =>
        let kwargs := (objGet fields "arguments").getD (.obj [])
        (match objGet fields "tool_name" with
         | some (.str t) =>
           if env.mcpManagerPresent && env.mcpServes t then
             -- MCP branch: the dispatched result is used verbatim, without
             -- normalization; `None` renders as JSON null
             let normalizedResult := (env.mcpDispatch t kwargs).getD .null
             .response 200 (.obj [("status", .str "success"), ("result", normalizedResult)])
           else
             match env.internalImpl t with
             | some impl =>
               (match kwargs with
                | .obj kw =>
                  (match impl kw with
                   | .ok raw =>
                     let normalizedResult :=
                       match raw with
                       | .obj fs => if objHas fs "content" then raw else normalizePlain raw
                       | _ => normalizePlain raw
                     .response 200 (.obj [("status", .str "success"),
                                          ("result", normalizedResult)])
                   | .raises k msg => excResponse k msg t)
                | _ =>
                  -- `impl(**kwargs)` with a non-mapping raises TypeError
                  excResponse .typeError "argument after ** must be a mapping" t)
             | none =>
               -- `raise KeyError(...)`, answered by the KeyError clause
               excResponse .keyError "" t
         | other =>
           -- a missing or non-string name is in neither string-keyed table;
           -- `raise KeyError(...)`, answered by the KeyError clause
           let display := match other with
                          | some j => pyStr j
                          | none => "None"
           excResponse .keyError "" display)
      | _ =>
        -- `post_data.get` on a non-dict raises AttributeError, answered by
        -- the catch-all clause
        .response 500 (.obj [("status", .str "error"), ("type", .str "TOOL_EXECUTION_ERROR"),
          ("message", .str "AttributeError: request body is not an object")])

/-- Stated from the spec's words, for comparison with the handler's actual
output: a 200 body of shape
`{status: "success", result: {content: [...], isError: bool}}` — the
`result` field an object carrying a `content` array and an `isError`
boolean. -/
def specSuccessShape (body : Json) : Bool :=
  match body with
  | .obj fs =>
    (match objGet fs "status", objGet fs "result" with
     | some (.str "success"), some (.obj rs) =>
       (match objGet rs "content", objGet rs "isError" with
        | some (.arr _), some (.bool _) => true
        | _, _ => false)
     | _, _ => false)
  | _ => false

/-- Stated from the spec's words: a non-200 body of shape
`{status: "error", type, message}`. -/
def specErrorShape (body : Json) : Bool :=
  match body with
  | .obj fs =>
    (match objGet fs "status", objGet fs "type", objGet fs "message" with
     | some (.str "error"), some (.str _), some (.str _) => true
     | _, _, _ => false)
  | _ => false

/-- `get_weather` (internal/internal_tools.py, lines 5-17), including the
keyword binding of its single `city` parameter (a missing or unexpected
keyword raises TypeError at call time). -/
def getWeatherImpl (kw : List (String × Json)) : ImplOutcome :=
  match kw with
  | [("city", v)] =>
    (match v with
     | .str city =>
       if pyStrip city = "" then .raises .typeError "City must be a non-empty string."
       else
         let cityLower := strLower city
         if cityLower = "london" then .ok (.str "Weather in London: 12°C, cloudy.")
         else if cityLower = "tokyo" then .ok (.str "Weather in Tokyo: 22°C, clear skies.")
         else .raises .valueError ("Weather information for " ++ city ++ " is not available.")
     | _ => .raises .typeError "City must be a non-empty string.")
  | _ => .raises .typeError "get_weather() keyword-argument binding failed"

/-!
Section: Tool server manager (internal/mcp_manager.py)

Child processes and the JSON-RPC exchanges are oracles: for every server
name the world records whether `start()` succeeded, whether the
`initialize` handshake succeeded, whether the declared capabilities carry a
truthy `tools` entry, and the concatenation of pages returned by the
paginated `tools/list` discovery.
-/

/-- Oracle for one server's runtime behaviour during startup. -/
structure ServerRuntime where
  started : Bool
  initOk : Bool
  capsTools : Bool
  tools : List Json

/-- The slice of the configuration the tool map depends on: the
`mcpServers` keys in order and the name-keyed `tool_patches`. -/
structure MCPConfig where
  serverNames : List String
  toolPatches : List (String × List (String × Json))

/-- Python `dict.update`: existing keys are overwritten in place, new keys
appended in patch order. -/
def dictUpdate (base patch : List (String × Json)) : List (String × Json) :=
  base.map (fun kv => (kv.1, (objGet patch kv.1).getD kv.2)) ++
    patch.filter (fun kv => !(objHas base kv.1))

/-- The patch loop of `_fetch_metadata` (lines 158-163) applied to one tool
descriptor: when `tool.get('name')` is a string with an entry in
`tool_patches`, the patch is merged over the descriptor. A non-dict
descriptor raises AttributeError. -/
def patchTool (patches : List (String × List (String × Json))) (tool : Json) :
    Except String Json :=
  match tool with
  | .obj fs =>
    .ok (match objGet fs "name" with
         | some (.str n) =>
           (match patches.lookup n with
            | some patch => .obj (dictUpdate fs patch)
            | none => .obj fs)
         | _ => .obj fs)
  | _ => .error "AttributeError: tool descriptor is not a dict"

/-- The key of a (patched) descriptor used in the name-to-server map:
`tool['name']`, raising KeyError when absent. -/
def toolMapKey (tool : Json) : Except String Json :=
  match tool with
  | .obj fs =>
    (match objGet fs "name" with
     | some n => .ok n
     | none => .error "KeyError: name")
  | _ => .error "AttributeError: tool descriptor is not a dict"

/-- Python dict assignment `map[key] = value` on an association list:
overwrite in place or append. -/
def insertOverwrite (m : List (Json × String)) (k : Json) (v : String) : List (Json × String) :=
  match m with
  | [] => [(k, v)]
  | (k0, v0) :: rest => if k0 == k then (k, v) :: rest else (k0, v0) :: insertOverwrite rest k v

/-- Lookup in the name-to-server map. -/
def mapLookup (m : List (Json × String)) (k : Json) : Option String :=
  match m with
  | [] => none
  | (k0, v0) :: rest => if k0 == k then some v0 else mapLookup rest k

/-- `_fetch_metadata` for one server qualifying for discovery: patch every
descriptor, then record each patched `tool['name']` in the map. -/
def fetchIntoMap (patches : List (String × List (String × Json))) (serverName : String)
    (tools : List Json) (m : List (Json × String)) : Except String (List (Json × String)) :=
  match tools with
  | [] => .ok m
  | tool :: rest => do
    let patched ← patchTool patches tool
    let key ← toolMapKey patched
    fetchIntoMap patches serverName rest (insertOverwrite m key serverName)

/-- The server walk of `MCPManager.startup` restricted to its effect on
`_tool_to_server_map`: servers are visited in configuration order; a server
that fails to start or to initialize is skipped; discovery runs only when
`capabilities.get("tools")` is truthy. -/
def startupMapGo (patches : List (String × List (String × Json)))
    (world : String → ServerRuntime) :
    List String → List (Json × String) → Except String (List (Json × String))
  | [], m => .ok m
  | name :: rest, m =>
    let rt := world name
    if rt.started && rt.initOk && rt.capsTools then do
      let m2 ← fetchIntoMap patches name rt.tools m
      startupMapGo patches world rest m2
    else startupMapGo patches world rest m

/-- `MCPManager.startup` restricted to its effect on
`_tool_to_server_map`, starting (as `_reinit` does) from the empty map. -/
def startupMap (cfg : MCPConfig) (world : String → ServerRuntime) :
    Except String (List (Json × String)) :=
  startupMapGo cfg.toolPatches world cfg.serverNames []

/-- `MCPManager.reload` (lines 131-136) restricted to its effect on
`_tool_to_server_map`: `shutdown()` does not touch the map, `_reinit` resets
it to empty, and `startup()` repopulates it from the new configuration; the
map held before the reload plays no part. -/
def reloadMCP (_oldMap : List (Json × String)) (cfg : MCPConfig)
    (world : String → ServerRuntime) : Except String (List (Json × String)) :=
  startupMap cfg world

/-- The patched `name` entries of one server's discovered tool list. -/
def patchedToolNames (patches : List (String × List (String × Json))) :
    List Json → Except String (List Json)
  | [] => .ok []
  | tool :: rest => do
    let patched ← patchTool patches tool
    let key ← toolMapKey patched
    let more ← patchedToolNames patches rest
    .ok (key :: more)

/-- The names published by the servers of a configuration under a world. -/
def publishedNamesGo (patches : List (String × List (String × Json)))
    (world : String → ServerRuntime) : List String → Except String (List Json)
  | [] => .ok []
  | name :: rest =>
    let rt := world name
    if rt.started && rt.initOk && rt.capsTools then do
      let ns ← patchedToolNames patches rt.tools
      let more ← publishedNamesGo patches world rest
      .ok (ns ++ more)
    else publishedNamesGo patches world rest

/-- The tool names published by a configuration under a world: for every
server that starts, initializes and declares tools, the `name` entry of
every patched descriptor. -/
def publishedNames (cfg : MCPConfig) (world : String → ServerRuntime) :
    Except String (List Json) :=
  publishedNamesGo cfg.toolPatches world cfg.serverNames

/-!
Section: Sandbox dependency pre-processor (internal/code_executor.py)

`process_tool_code` (lines 53-121) is embedded over character lists. The
two regular expressions of the source are translated into direct matchers
with Python `re` semantics (leftmost scanning, greedy `.*`, `re.DOTALL` for
the fenced-block pattern). Dependency arrays are modelled over string
elements; an array with a non-string element is treated like malformed
JSON (the source would crash later on such input when sorting a mixed set,
which no claim exercises).
-/

/-- `[a-zA-Z0-9_]`, also the `\b` word class of Python `re`. -/
def isWordChar (c : Char) : Bool :=
  ('a' ≤ c && c ≤ 'z') || ('A' ≤ c && c ≤ 'Z') || ('0' ≤ c && c ≤ '9') || c = '_'

/-- `IMPORT_TO_PACKAGE_MAP` (code_executor.py, lines 16-39). -/
def IMPORT_TO_PACKAGE_MAP : List (String × String) :=
  [("bs4", "beautifulsoup4"), ("cv2", "opencv-python"), ("dotenv", "python-dotenv"),
   ("fake", "faker"), ("fitz", "pymupdf"), ("google.cloud", "google-cloud"),
   ("google.oauth2", "google-auth"), ("matplotlib", "matplotlib"), ("numpy", "numpy"),
   ("pandas", "pandas"), ("PIL", "pillow"), ("pyarrow", "pyarrow"),
   ("pydantic", "pydantic"), ("pygame", "pygame"), ("pytest", "pytest"),
   ("requests", "requests"), ("scipy", "scipy"), ("sklearn", "scikit-learn"),
   ("seaborn", "seaborn"), ("sqlalchemy", "sqlalchemy"), ("torch", "torch"),
   ("yaml", "pyyaml")]

/-- Python `str.splitlines()` (newline-only line boundaries): no entry for
a trailing newline and no entries at all for the empty string. -/
def splitLinesGo (cur : List Char) : List Char → List (List Char)
  | [] => [cur.reverse]
  | '\n' :: [] => [cur.reverse]
  | '\n' :: rest => cur.reverse :: splitLinesGo [] rest
  | c :: rest => splitLinesGo (c :: cur) rest

/-- Python `str.splitlines()`. -/
def splitLines (cs : List Char) : List (List Char) :=
  match cs with
  | [] => []
  | _ => splitLinesGo [] cs

/-- Python `"\n".join(lines)`. -/
def joinLines (lines : List (List Char)) : List Char :=
  match lines with
  | [] => []
  | [l] => l
  | l :: rest => l ++ '\n' :: joinLines rest

/-- The tail `\s*\n\s*# ///\s*\n?` of the fenced-block pattern, applied
after the closing bracket: a whitespace run containing a newline, the
closing fence, then the maximal following whitespace run (greedy `\s*`
makes the optional `\n?` always empty). Returns the rest after the match. -/
def matchScriptTail (cs : List Char) : Option (List Char) :=
  let (ws, r) := spanWs cs
  if ws.contains '\n' then
    match stripPrefixChars "# ///".data r with
    | some r2 => some (spanWs r2).2
    | none => none
  else none

/-- The group `(\[.*\])` after its opening bracket, with the `dotall` flag
telling whether `.` matches a newline: the source compiles the fenced-block
pattern with `re.DOTALL` inside `re.finditer` (line 63) but passes no flag
to `re.sub` (line 72). Greedy, so the content runs to the last admissible
closing bracket whose tail matches, backtracking to earlier brackets.
Returns the group content (without brackets) and the rest after the whole
match. -/
def findGroup2 (dotall : Bool) (acc : List Char) : List Char → Option (List Char × List Char)
  | [] => none
  | ']' :: rest =>
    (match findGroup2 dotall (']' :: acc) rest with
     | some r => some r
     | none =>
       match matchScriptTail rest with
       | some r2 => some (acc.reverse, r2)
       | none => none)
  | c :: rest =>
    if c = '\n' && !dotall then none
    else findGroup2 dotall (c :: acc) rest

/-- One attempted match of the fenced-block pattern
`(# /// script\s*\n\s*#\s*dependencies\s*=\s*(\[.*\])\s*\n\s*# ///\s*\n?)`
anchored at the given position: the text of group 2 (with its brackets)
and the rest after the match. -/
def matchScriptAt (dotall : Bool) (cs : List Char) : Option (List Char × List Char) :=
  match stripPrefixChars "# /// script".data cs with
  | none => none
  | some r1 =>
    let (ws1, r2) := spanWs r1
    if ws1.contains '\n' then
      match stripPrefixChars "#".data r2 with
      | some r3 =>
        (match stripPrefixChars "dependencies".data (spanWs r3).2 with
         | some r5 =>
           (match (spanWs r5).2 with
            | '=' :: r7 =>
              (match (spanWs r7).2 with
               | '[' :: r9 =>
                 (match findGroup2 dotall [] r9 with
                  | some (content, rest) => some ('[' :: (content ++ [']']), rest)
                  | none => none)
               | _ => none)
            | _ => none)
         | none => none)
      | none => none
    else none

/-- `re.finditer(script_block_regex, code, re.DOTALL)` (line 63): the
group-2 texts of the leftmost non-overlapping matches, in order. -/
def collectScript (fuel : Nat) (cs : List Char) : List (List Char) :=
  match fuel with
  | 0 => []
  | fuel + 1 =>
    match cs with
    | [] => []
    | c :: rest =>
      match matchScriptAt true (c :: rest) with
      | some (grp, after) => grp :: collectScript fuel after
      | none => collectScript fuel rest

/-- `re.sub(script_block_regex, "", code)` (line 72, compiled without
`re.DOTALL`): the text with every leftmost non-overlapping match removed. -/
def removeScript (fuel : Nat) (cs : List Char) : List Char :=
  match fuel with
  | 0 => cs
  | fuel + 1 =>
    match cs with
    | [] => []
    | c :: rest =>
      match matchScriptAt false (c :: rest) with
      | some (_, after) => removeScript fuel after
      | none => c :: removeScript fuel rest

/-- The content before the last `]` of the line remainder, if any
(the greedy `(\[.*\])` at the end of the single-line pattern). -/
def lastClose : List Char → Option (List Char)
  | [] => none
  | c :: rest =>
    match lastClose rest with
    | some more => some (c :: more)
    | none => if c = ']' then some [] else none

/-- One attempted match of the single-line pattern
`^\s*(#\s*)?dependencies\s*=\s*(\[.*\])` against a whole line
(`re.match`): the text of group 2 with its brackets. -/
def matchDepLine (line : List Char) : Option (List Char) :=
  let r1 := (spanWs line).2
  let r2 := match r1 with
            | '#' :: rest => (spanWs rest).2
            | _ => r1
  match stripPrefixChars "dependencies".data r2 with
  | some r3 =>
    (match (spanWs r3).2 with
     | '=' :: r5 =>
       (match (spanWs r5).2 with
        | '[' :: r7 =>
          (match lastClose r7 with
           | some content => some ('[' :: (content ++ [']']))
           | none => none)
        | _ => none)
     | _ => none)
  | none => none

/-- `re.search(r"\bTools\.", body)`: an occurrence of `Tools.` preceded by
a word boundary. -/
def containsToolsTok (boundary : Bool) : List Char → Bool
  | [] => false
  | c :: rest =>
    (boundary && (stripPrefixChars "Tools.".data (c :: rest)).isSome) ||
      containsToolsTok (!isWordChar c) rest

/-- The alternation `(from|import)\s+` anchored at the given position. -/
def matchImportKeyword (cs : List Char) : Option (List Char) :=
  match stripPrefixChars "from".data cs with
  | some r =>
    let (w, r2) := spanWs r
    if w ≠ [] then some r2
    else
      (match stripPrefixChars "import".data cs with
       | some r3 =>
         let (w2, r4) := spanWs r3
         if w2 ≠ [] then some r4 else none
       | none => none)
  | none =>
    match stripPrefixChars "import".data cs with
    | some r3 =>
      let (w2, r4) := spanWs r3
      if w2 ≠ [] then some r4 else none
    | none => none

/-- `re.search(r"^\s*(from|import)\s+tools\b", line)` applied to one
line. -/
def isToolsImportLine (line : List Char) : Bool :=
  match matchImportKeyword (spanWs line).2 with
  | some r =>
    (match stripPrefixChars "tools".data r with
     | some [] => true
     | some (c :: _) => !isWordChar c
     | none => false)
  | none => false

/-- `line.strip().startswith(('import ', 'from '))`. -/
def isImportStartLine (line : List Char) : Bool :=
  let s := stripChars line
  (stripPrefixChars "import ".data s).isSome || (stripPrefixChars "from ".data s).isSome

/-- The maximal `[a-zA-Z0-9_]+` prefix. -/
def takeWord (cs : List Char) : List Char × List Char :=
  match cs with
  | [] => ([], [])
  | c :: rest =>
    if isWordChar c then
      let (w, r) := takeWord rest
      (c :: w, r)
    else ([], cs)

/-- `_infer_dependencies`'s per-line step (lines 44-50): the captured
top-level module of `^(?:from|import)\s+([a-zA-Z0-9_]+)` on the stripped
line (the `.split('.')` of the source is the identity, the capture class
admitting no dot). -/
def inferModule (line : List Char) : Option String :=
  match matchImportKeyword (stripChars line) with
  | some r =>
    let (w, _) := takeWord r
    if w ≠ [] then some w.asString else none
  | none => none

/-- Adding one element to a set modelled as a duplicate-free list. -/
def addSet (l : List String) (x : String) : List String :=
  if l.contains x then l else l ++ [x]

/-- `_infer_dependencies` (lines 41-51): the set of mapped packages of
all import lines. -/
def inferDependencies (lines : List (List Char)) : List String :=
  lines.foldl (fun acc line =>
    match inferModule line with
    | some m =>
      (match IMPORT_TO_PACKAGE_MAP.lookup m with
       | some pkg => addSet acc pkg
       | none => acc)
    | none => acc) []

/-- `json.loads` of a dependency array: a JSON array of strings with no
trailing data. -/
def parseDepsArray (cs : List Char) : Option (List String) :=
  match parseJsonValue (cs.length + 1) cs with
  | .ok (.arr items, rest) =>
    if skipJsonWs rest = [] then
      items.foldr (fun item acc =>
        match item, acc with
        | .str s, some l => some (s :: l)
        | _, _ => none) (some [])
    else none
  | _ => none

/-- Lexicographic code-point comparison, Python `<=` on strings. -/
def charListLe : List Char → List Char → Bool
  | [], _ => true
  | _ :: _, [] => false
  | a :: as, b :: bs =>
    if a.val < b.val then true
    else if b.val < a.val then false
    else charListLe as bs

/-- Insertion into an ascending list. -/
def insertSorted (x : String) : List String → List String
  | [] => [x]
  | y :: rest => if charListLe x.data y.data then x :: y :: rest else y :: insertSorted x rest

/-- Python `sorted(...)` over strings. -/
def sortStrings (l : List String) : List String :=
  l.foldr insertSorted []

/-- `json.dumps` of a list of strings (default separators). -/
def dumpsStrList (l : List String) : String :=
  "[" ++ String.intercalate ", " (l.map jsonQuote) ++ "]"

/-- The index of the last line satisfying the predicate (the backwards
scan of lines 101-104). -/
def lastIdxWhere (p : List Char → Bool) (lines : List (List Char)) : Option Nat :=
  match lines with
  | [] => none
  | l :: rest =>
    match lastIdxWhere p rest with
    | some i => some (i + 1)
    | none => if p l then some 0 else none

/-- Python `list.insert(i, x)` (appending when the index is past the
end). -/
def insertAt : Nat → List Char → List (List Char) → List (List Char)
  | 0, x, l => x :: l
  | _ + 1, x, [] => [x]
  | n + 1, x, c :: rest => c :: insertAt n x rest

/-- `process_tool_code` (internal/code_executor.py, lines 53-121). -/
def process_tool_code (code : String) : String :=
  let cs := code.data
  let lines0 := splitLines cs
  -- fenced script blocks: the last match's array is collected (DOTALL
  -- pattern), then all matches of the flagless pattern are removed
  let grps := collectScript (cs.length + 1) cs
  let (packages1, lines1) :=
    match grps.getLast? with
    | some lastGrp =>
      let pkgs := match parseDepsArray lastGrp with
                  | some ps => ps.foldl addSet []
                  | none => []          -- malformed JSON is ignored
      (pkgs, splitLines (removeScript (cs.length + 1) cs))
    | none => ([], lines0)
  -- single-line dependency comments: collected and dropped
  let (packages2, cleaned0) := lines1.foldl
    (fun (acc : List String × List (List Char)) line =>
      match matchDepLine line with
      | some grp =>
        (match parseDepsArray grp with
         | some ps => (ps.foldl addSet acc.1, acc.2)
         | none => (acc.1, acc.2))      -- malformed JSON is ignored, line still dropped
      | none => (acc.1, acc.2 ++ [line])) (packages1, [])
  -- `Tools` usage: force the requests dependency and the proxy import
  let isToolClassUsed := containsToolsTok true (joinLines cleaned0)
  let (packages3, cleaned1) :=
    if isToolClassUsed then
      let p := (addSet packages2 "requests").filter (fun s => s ≠ "tools")
      let importStmt := "from tools import Tools, MCPToolError".data
      let newLines :=
        if cleaned0.any isToolsImportLine then cleaned0
        else
          match lastIdxWhere isImportStartLine cleaned0 with
          | some i => insertAt (i + 1) importStmt cleaned0
          | none =>
            let pos := match cleaned0 with
                       | first :: _ => if (stripPrefixChars "#!".data first).isSome then 1 else 0
                       | [] => 0
            insertAt pos importStmt cleaned0
      (p, newLines)
    else (packages2, cleaned0)
  let packages4 := (inferDependencies cleaned1).foldl addSet packages3
  let finalBody := joinLines cleaned1
  let uvCode :=
    if packages4 ≠ [] then
      let depLine := "# dependencies = " ++ dumpsStrList (sortStrings packages4)
      "# /// script\n" ++ depLine ++ "\n# ///\n" ++ finalBody.asString
    else finalBody.asString
  pyStrip uvCode

/-!
Section: Observable turn outcomes (stated from the spec's words)

`h0` is the pre-turn history with the system head refreshed; the three
predicates are the spec's cases (a), (b) and the cancellation case.
-/

/-- Case (a): a final assistant message was appended and the status is
DONE. -/
def turnFinal (h0 : List Msg) (a2 : Agent) : Prop :=
  a2.status = .done ∧ ∃ t, a2.history = h0 ++ [{ role := "assistant", content := t }]

/-- Case (b): a tool-batch assistant message plus a
`TOOL_EXECUTION_RESULT` message were appended and the status is READY or
WAITING. -/
def turnToolBatch (h0 : List Msg) (a2 : Agent) : Prop :=
  (a2.status = .ready ∨ a2.status = .waiting) ∧
    ∃ t fb, a2.history =
      h0 ++ [{ role := "assistant",
               content := TOOL_TAG_START ++ "\n" ++ t ++ "\n" ++ TOOL_TAG_END },
             { role := "user", content := "TOOL_EXECUTION_RESULT:\n" ++ fb }]

/-- Cancellation case: nothing was appended and the status is DONE. -/
def turnInterrupted (h0 : List Msg) (a2 : Agent) : Prop :=
  a2.status = .done ∧ a2.history = h0

/-!
Section: Infrastructure: lawfulness of the `Json` equality test
-/

theorem json_beq_aux : ∀ n : Nat,
    (∀ a : Json, sizeOf a ≤ n → ∀ b, (Json.beq a b = true ↔ a = b)) ∧
    (∀ l : List Json, sizeOf l ≤ n → ∀ l2, (Json.beqList l l2 = true ↔ l = l2)) ∧
    (∀ f : List (String × Json), sizeOf f ≤ n →
      ∀ f2, (Json.beqFields f f2 = true ↔ f = f2)) := by
  intro n
  induction n using Nat.strong_induction_on with
  | _ n ih =>
    refine ⟨?_, ?_, ?_⟩
    · intro a ha b
      cases a <;> cases b <;> simp [Json.beq]
      case arr.arr l l2 =>
        have hs := Json.arr.sizeOf_spec l
        exact (ih (sizeOf l) (by omega)).2.1 l (le_refl _) l2
      case obj.obj f f2 =>
        have hs := Json.obj.sizeOf_spec f
        exact (ih (sizeOf f) (by omega)).2.2 f (le_refl _) f2
    · intro l hl l2
      cases l with
      | nil => cases l2 <;> simp [Json.beqList]
      | cons a as =>
        cases l2 with
        | nil => simp [Json.beqList]
        | cons b bs =>
          have hs := List.cons.sizeOf_spec a as
          simp only [Json.beqList, Bool.and_eq_true, List.cons.injEq]
          exact and_congr ((ih (sizeOf a) (by omega)).1 a (le_refl _) b)
            ((ih (sizeOf as) (by omega)).2.1 as (le_refl _) bs)
    · intro f hf f2
      cases f with
      | nil => cases f2 <;> simp [Json.beqFields]
      | cons kv as =>
        obtain ⟨ka, va⟩ := kv
        cases f2 with
        | nil => simp [Json.beqFields]
        | cons kv2 bs =>
          obtain ⟨kb, vb⟩ := kv2
          have hs1 := List.cons.sizeOf_spec (ka, va) as
          have hs2 := Prod.mk.sizeOf_spec ka va
          simp only [Json.beqFields, Bool.and_eq_true, List.cons.injEq, Prod.mk.injEq,
            beq_iff_eq]
          constructor
          · rintro ⟨⟨hk, hv⟩, hrest⟩
            exact ⟨⟨hk, ((ih (sizeOf va) (by omega)).1 va (le_refl _) vb).mp hv⟩,
              ((ih (sizeOf as) (by omega)).2.2 as (le_refl _) bs).mp hrest⟩
          · rintro ⟨⟨hk, hv⟩, hrest⟩
            exact ⟨⟨hk, ((ih (sizeOf va) (by omega)).1 va (le_refl _) vb).mpr hv⟩,
              ((ih (sizeOf as) (by omega)).2.2 as (le_refl _) bs).mpr hrest⟩

theorem Json.beq_iff_eq (a b : Json) : (Json.beq a b = true) ↔ a = b :=
  (json_beq_aux (sizeOf a)).1 a (le_refl _) b

instance : LawfulBEq Json where
  eq_of_beq h := (Json.beq_iff_eq _ _).mp h
  rfl := (Json.beq_iff_eq _ _).mpr rfl

instance : DecidableEq Json :=
  fun a b => decidable_of_iff (Json.beq a b = true) (Json.beq_iff_eq a b)

deriving instance DecidableEq for Except
deriving instance DecidableEq for ExecEntry
deriving instance DecidableEq for ExecOutcome
deriving instance DecidableEq for Agent
deriving instance DecidableEq for TurnResult
deriving instance DecidableEq for HttpOutcome
deriving instance DecidableEq for DispatchResult

/-!
Section: Helper lemmas about the reference resolver
-/

theorem except_bind_ok {α β : Type} {e : Except String α} {f : α → Except String β} {b : β} :
    (e >>= f) = .ok b ↔ ∃ a, e = .ok a ∧ f a = .ok b := by
  cases e with
  | error err => simp [Bind.bind, Except.bind]
  | ok a => simp [Bind.bind, Except.bind]

/-- Resolution acts pointwise on the argument dict: the binding of every
key is the resolution of its old value. -/
theorem resolve_objGet {args : List (String × Json)} {m : ResultsById}
    {args2 : List (String × Json)} (hok : resolveArgumentReferences args m = .ok args2)
    {k : String} {v : Json} (hget : objGet args k = some v) :
    ∃ v2, objGet args2 k = some v2 ∧ resolveOneValue v m = .ok v2 := by
  induction args generalizing args2 with
  | nil => simp [objGet] at hget
  | cons kv rest ih =>
    obtain ⟨k0, v0⟩ := kv
    rw [resolveArgumentReferences] at hok
    rw [except_bind_ok] at hok
    obtain ⟨v02, h1, hok⟩ := hok
    rw [except_bind_ok] at hok
    obtain ⟨rest2, h2, hok⟩ := hok
    simp only [Except.ok.injEq] at hok
    subst hok
    rw [objGet] at hget ⊢
    by_cases hk : k0 = k
    · simp only [if_pos hk] at hget ⊢
      obtain rfl := Option.some.inj hget
      exact ⟨v02, rfl, h1⟩
    · simp only [if_neg hk] at hget ⊢
      exact ih h2 hget

/-- Resolution of a list value keeps its length and leaves every non-dict
item unchanged. -/
theorem resolveListItems_spec {items : List Json} {m : ResultsById} {items2 : List Json}
    (hok : resolveListItems items m = .ok items2) :
    items2.length = items.length ∧
      ∀ i item, items.get? i = some item → item.isObj = false → items2.get? i = some item := by
  induction items generalizing items2 with
  | nil =>
    rw [resolveListItems] at hok
    simp only [Except.ok.injEq] at hok
    subst hok
    exact ⟨rfl, by intro i item h; simp [List.get?] at h⟩
  | cons item rest ih =>
    rw [resolveListItems.eq_def] at hok
    dsimp only at hok
    rw [except_bind_ok] at hok
    obtain ⟨v2, h1, hok⟩ := hok
    rw [except_bind_ok] at hok
    obtain ⟨rest2, h2, hok⟩ := hok
    simp only [Except.ok.injEq] at hok
    subst hok
    obtain ⟨hlen, hitems⟩ := ih h2
    refine ⟨by simp [hlen], ?_⟩
    intro i it hget hobj
    cases i with
    | zero =>
      simp only [List.get?, Option.some.injEq] at hget
      obtain rfl := hget
      simp only [List.get?, Option.some.injEq]
      cases item with
      | obj fs => simp [Json.isObj] at hobj
      | null => dsimp only at h1; simp only [Except.ok.injEq] at h1; exact h1.symm
      | bool b => dsimp only at h1; simp only [Except.ok.injEq] at h1; exact h1.symm
      | num n2 => dsimp only at h1; simp only [Except.ok.injEq] at h1; exact h1.symm
      | str s => dsimp only at h1; simp only [Except.ok.injEq] at h1; exact h1.symm
      | arr xs => dsimp only at h1; simp only [Except.ok.injEq] at h1; exact h1.symm
    | succ n =>
      simp only [List.get?] at hget ⊢
      exact hitems n it hget hobj

theorem except_bind_error {α β : Type} {e : Except String α} {f : α → Except String β}
    {msg : String} :
    (e >>= f) = .error msg ↔ e = .error msg ∨ ∃ a, e = .ok a ∧ f a = .error msg := by
  cases e with
  | error err => simp [Bind.bind, Except.bind]
  | ok a => simp [Bind.bind, Except.bind]

/-- A failing resolution always traces back to a `$`-reference, at a
position the resolver inspects, whose id has no recorded result. -/
theorem refs_aux : ∀ n : Nat,
    (∀ (args : List (String × Json)) (m : ResultsById) (e : String), sizeOf args ≤ n →
      resolveArgumentReferences args m = .error e →
      ∃ id, id ∈ refsOfArgs args ∧ resultsLookup m id = none) ∧
    (∀ (v : Json) (m : ResultsById) (e : String), sizeOf v ≤ n →
      resolveOneValue v m = .error e →
      ∃ id, id ∈ refsOfValue v ∧ resultsLookup m id = none) ∧
    (∀ (items : List Json) (m : ResultsById) (e : String), sizeOf items ≤ n →
      resolveListItems items m = .error e →
      ∃ id, id ∈ refsOfItems items ∧ resultsLookup m id = none) := by
  intro n
  induction n using Nat.strong_induction_on with
  | _ n ih =>
    refine ⟨?_, ?_, ?_⟩
    · intro args m e hsz herr
      cases args with
      | nil => rw [resolveArgumentReferences] at herr; simp at herr
      | cons kv rest =>
        obtain ⟨k0, v0⟩ := kv
        have hs1 := List.cons.sizeOf_spec (k0, v0) rest
        have hs2 := Prod.mk.sizeOf_spec k0 v0
        rw [resolveArgumentReferences] at herr
        rw [except_bind_error] at herr
        rcases herr with herr | ⟨v2, _, herr⟩
        · obtain ⟨id, hmem, hnone⟩ :=
            (ih (sizeOf v0) (by omega)).2.1 v0 m e (le_refl _) herr
          exact ⟨id, by rw [refsOfArgs]; exact List.mem_append_left _ hmem, hnone⟩
        · rw [except_bind_error] at herr
          rcases herr with herr | ⟨r2, _, herr⟩
          · obtain ⟨id, hmem, hnone⟩ :=
              (ih (sizeOf rest) (by omega)).1 rest m e (le_refl _) herr
            exact ⟨id, by rw [refsOfArgs]; exact List.mem_append_right _ hmem, hnone⟩
          · simp at herr
    · intro v m e hsz herr
      cases v with
      | null => rw [resolveOneValue.eq_def] at herr; dsimp only at herr; simp at herr
      | bool b => rw [resolveOneValue.eq_def] at herr; dsimp only at herr; simp at herr
      | num x => rw [resolveOneValue.eq_def] at herr; dsimp only at herr; simp at herr
      | str s =>
        rw [resolveOneValue] at herr
        by_cases hd : strStartsWith s "$" = true
        · rw [if_pos hd] at herr
          cases hl : resultsLookup m (strDrop s 1) with
          | none =>
            exact ⟨strDrop s 1, by rw [refsOfValue]; simp [hd], hl⟩
          | some r => simp [hl] at herr
        · rw [if_neg hd] at herr; simp at herr
      | obj fs =>
        have hs := Json.obj.sizeOf_spec fs
        rw [resolveOneValue] at herr
        rw [except_bind_error] at herr
        rcases herr with herr | ⟨r2, _, herr⟩
        · obtain ⟨id, hmem, hnone⟩ :=
            (ih (sizeOf fs) (by omega)).1 fs m e (le_refl _) herr
          exact ⟨id, by rw [refsOfValue]; exact hmem, hnone⟩
        · simp at herr
      | arr items =>
        have hs := Json.arr.sizeOf_spec items
        rw [resolveOneValue] at herr
        rw [except_bind_error] at herr
        rcases herr with herr | ⟨r2, _, herr⟩
        · obtain ⟨id, hmem, hnone⟩ :=
            (ih (sizeOf items) (by omega)).2.2 items m e (le_refl _) herr
          exact ⟨id, by rw [refsOfValue]; exact hmem, hnone⟩
        · simp at herr
    · intro items m e hsz herr
      cases items with
      | nil => rw [resolveListItems] at herr; simp at herr
      | cons item rest =>
        have hs1 := List.cons.sizeOf_spec item rest
        rw [resolveListItems.eq_def] at herr
        dsimp only at herr
        rw [except_bind_error] at herr
        rcases herr with herr | ⟨v2, _, herr⟩
        · cases item with
          | obj fs =>
            have hs2 := Json.obj.sizeOf_spec fs
            dsimp only at herr
            rw [except_bind_error] at herr
            rcases herr with herr | ⟨r2, _, herr⟩
            · obtain ⟨id, hmem, hnone⟩ :=
                (ih (sizeOf fs) (by omega)).1 fs m e (le_refl _) herr
              exact ⟨id, by rw [refsOfItems]; exact List.mem_append_left _ hmem, hnone⟩
            · simp at herr
          | null => dsimp only at herr; simp at herr
          | bool b => dsimp only at herr; simp at herr
          | num x => dsimp only at herr; simp at herr
          | str s => dsimp only at herr; simp at herr
          | arr xs => dsimp only at herr; simp at herr
        · rw [except_bind_error] at herr
          rcases herr with herr | ⟨r2, _, herr⟩
          · obtain ⟨id, hmem, hnone⟩ :=
              (ih (sizeOf rest) (by omega)).2.2 rest m e (le_refl _) herr
            refine ⟨id, ?_, hnone⟩
            cases item with
            | obj fs => simp only [refsOfItems, List.mem_append]; exact Or.inr hmem
            | null => simpa only [refsOfItems] using hmem
            | bool b => simpa only [refsOfItems] using hmem
            | num x => simpa only [refsOfItems] using hmem
            | str s => simpa only [refsOfItems] using hmem
            | arr xs => simpa only [refsOfItems] using hmem
          · simp at herr

/-!
Section: Helper lemmas about tool-batch execution
-/

/-- One loop iteration leaves the agent status alone or sets it to
WAITING. -/
theorem execStep_status {env : KernelEnv} {st : AgentStatus} {ctr : Nat} {m : ResultsById}
    {call : Json} {entry : ExecEntry} {st2 : AgentStatus} {ctr2 : Nat}
    (h : execStep env st ctr m call = .ok entry st2 ctr2) : st2 = st ∨ st2 = .waiting := by
  rw [execStep.eq_def] at h
  dsimp only at h
  split at h
  · split at h
    · split at h
      · cases h; exact Or.inl rfl
      · split at h
        · cases h; exact Or.inr rfl
        · cases h; exact Or.inl rfl
    · cases h
  · cases h

/-- The loop body at a `wait_for_agents` call with empty arguments: a
success envelope with the confirmation text and status WAITING, whatever
the environment, the status and the accumulated results. -/
theorem execStep_wait {env : KernelEnv} {st : AgentStatus} {ctr : Nat} {m : ResultsById}
    {fields : List (String × Json)}
    (hname : objGet fields "tool_name" = some (.str "wait_for_agents"))
    (hargs : objGet fields "arguments" = some (.obj [])) :
    execStep env st ctr m (.obj fields) =
      .ok { callId := (objGet fields "call_id").getD (.str ("call_" ++ toString (ctr + 1))),
            result := successEnvelope
              (.str "Agent is now waiting for sub-agents to complete.") }
        .waiting (ctr + 1) := by
  rw [execStep]
  simp only [hname, hargs, Option.getD_some]
  rw [resolveArgumentReferences]

/-- Once the status is WAITING, the rest of the batch keeps it WAITING. -/
theorem exec_waiting_sticky :
    ∀ (calls : List Json) (env : KernelEnv) (ctr : Nat) (m : ResultsById)
      {es : List ExecEntry} {stf : AgentStatus} {ctrf : Nat},
      executeToolCalls env .waiting ctr m calls = .ok es stf ctrf → stf = .waiting := by
  intro calls
  induction calls with
  | nil =>
    intro env ctr m es stf ctrf h
    rw [executeToolCalls] at h
    simp only [ExecOutcome.ok.injEq] at h
    exact h.2.1.symm
  | cons call rest ih =>
    intro env ctr m es stf ctrf h
    rw [executeToolCalls] at h
    cases hstep : execStep env .waiting ctr m call with
    | raised msg => rw [hstep] at h; cases h
    | ok entry st2 ctr2 =>
      rw [hstep] at h
      dsimp only at h
      have hst2 : st2 = .waiting := by
        rcases execStep_status hstep with h2 | h2 <;> exact h2
      subst hst2
      cases hrec : executeToolCalls env .waiting ctr2 ((entry.callId, entry.result) :: m) rest with
      | raised msg => rw [hrec] at h; cases h
      | ok es1 stf1 ctrf1 =>
        rw [hrec] at h
        dsimp only at h
        simp only [ExecOutcome.ok.injEq] at h
        exact h.2.1 ▸ ih env ctr2 _ hrec

/-- The batch never skips a call: one result record per call. -/
theorem exec_length :
    ∀ (calls : List Json) (env : KernelEnv) (st : AgentStatus) (ctr : Nat) (m : ResultsById)
      {es : List ExecEntry} {stf : AgentStatus} {ctrf : Nat},
      executeToolCalls env st ctr m calls = .ok es stf ctrf → es.length = calls.length := by
  intro calls
  induction calls with
  | nil =>
    intro env st ctr m es stf ctrf h
    rw [executeToolCalls] at h
    simp only [ExecOutcome.ok.injEq] at h
    obtain ⟨h1, -, -⟩ := h
    subst h1
    rfl
  | cons call rest ih =>
    intro env st ctr m es stf ctrf h
    rw [executeToolCalls] at h
    cases hstep : execStep env st ctr m call with
    | raised msg => rw [hstep] at h; cases h
    | ok entry st2 ctr2 =>
      rw [hstep] at h
      dsimp only at h
      cases hrec : executeToolCalls env st2 ctr2 ((entry.callId, entry.result) :: m) rest with
      | raised msg => rw [hrec] at h; cases h
      | ok es1 stf1 ctrf1 =>
        rw [hrec] at h
        dsimp only at h
        simp only [ExecOutcome.ok.injEq] at h
        obtain ⟨h1, -, -⟩ := h
        subst h1
        simp [ih env st2 ctr2 _ hrec]

/-!
Section: Claim C1 — `wait_for_agents` and the rest of the batch
-/

/-- C1 (counterexample): a batch whose first call is `wait_for_agents`
still executes the following call — the result list has one entry per
call, and the second entry holds the dispatched output of the later call,
refuting the claim that processing stops at the wait directive. -/
theorem C1_wait_does_not_stop_batch :
    executeToolCalls
      { systemPrompt := "", streaming := false, streamAns := .ok "", nonStreamAns := .ok "",
        confirm := fun _ _ => true,
        dispatch := fun _ _ => .success (.num 42) }
      .running 0 []
      [Json.obj [("tool_name", Json.str "wait_for_agents"), ("arguments", Json.obj [])],
       Json.obj [("tool_name", Json.str "multiply_numbers"),
                 ("arguments", Json.obj [("a", Json.num 6), ("b", Json.num 7)])]] =
      .ok
        [{ callId := Json.str "call_1",
           result := successEnvelope
             (Json.str "Agent is now waiting for sub-agents to complete.") },
         { callId := Json.str "call_2", result := successEnvelope (Json.num 42) }]
        .waiting 2 := by
  rfl

/-- C1 (amended): at a `wait_for_agents` call the kernel does not consult
the dispatch environment, records the success envelope with the
confirmation text, sets the agent status to WAITING — and then CONTINUES
the batch: every call of the batch, also past the wait directive, yields
exactly one entry of the returned result list, and the final status stays
WAITING. -/
theorem C1_wait_sets_waiting_and_continues :
    ∀ (calls : List Json) (i : Nat) (env : KernelEnv) (st : AgentStatus) (ctr : Nat)
      (m : ResultsById) {es : List ExecEntry} {stf : AgentStatus} {ctrf : Nat}
      {fields : List (String × Json)},
      executeToolCalls env st ctr m calls = .ok es stf ctrf →
      calls.get? i = some (.obj fields) →
      objGet fields "tool_name" = some (.str "wait_for_agents") →
      objGet fields "arguments" = some (.obj []) →
      es.length = calls.length ∧ stf = .waiting ∧
        (es.get? i).map ExecEntry.result =
          some (successEnvelope (.str "Agent is now waiting for sub-agents to complete.")) := by
  intro calls
  induction calls with
  | nil =>
    intro i env st ctr m es stf ctrf fields h hget
    simp [List.get?] at hget
  | cons call rest ih =>
    intro i env st ctr m es stf ctrf fields h hget hname hargs
    rw [executeToolCalls] at h
    cases hstep : execStep env st ctr m call with
    | raised msg => rw [hstep] at h; cases h
    | ok entry st2 ctr2 =>
      rw [hstep] at h
      dsimp only at h
      cases hrec : executeToolCalls env st2 ctr2 ((entry.callId, entry.result) :: m) rest with
      | raised msg => rw [hrec] at h; cases h
      | ok es1 stf1 ctrf1 =>
        rw [hrec] at h
        dsimp only at h
        simp only [ExecOutcome.ok.injEq] at h
        obtain ⟨hes, hstf, -⟩ := h
        subst hes; subst hstf
        cases i with
        | zero =>
          simp only [List.get?, Option.some.injEq] at hget
          subst hget
          rw [execStep_wait hname hargs] at hstep
          cases hstep
          refine ⟨by simp [exec_length rest env _ _ _ hrec],
            exec_waiting_sticky rest env _ _ hrec, ?_⟩
          simp
        | succ n =>
          simp only [List.get?] at hget
          obtain ⟨hlen, hwait, hres⟩ := ih n env st2 ctr2 _ hrec hget hname hargs
          exact ⟨by simp [hlen], hwait, by simpa [List.get?] using hres⟩

/-- C1 (witness): the amended statement applied to the concrete batch of
the counterexample — two calls, two result entries, entry 0 the wait
confirmation, final status WAITING. -/
theorem C1_wait_witness :
    ([{ callId := Json.str "call_1",
        result := successEnvelope
          (Json.str "Agent is now waiting for sub-agents to complete.") },
      { callId := Json.str "call_2", result := successEnvelope (Json.num 42) }] :
        List ExecEntry).length =
      ([Json.obj [("tool_name", Json.str "wait_for_agents"), ("arguments", Json.obj [])],
        Json.obj [("tool_name", Json.str "multiply_numbers"),
                  ("arguments", Json.obj [("a", Json.num 6), ("b", Json.num 7)])]] :
        List Json).length ∧
    AgentStatus.waiting = AgentStatus.waiting ∧
    (([{ callId := Json.str "call_1",
         result := successEnvelope
           (Json.str "Agent is now waiting for sub-agents to complete.") },
       { callId := Json.str "call_2", result := successEnvelope (Json.num 42) }] :
        List ExecEntry).get? 0).map ExecEntry.result =
      some (successEnvelope (.str "Agent is now waiting for sub-agents to complete.")) :=
  @C1_wait_sets_waiting_and_continues
    [Json.obj [("tool_name", Json.str "wait_for_agents"), ("arguments", Json.obj [])],
     Json.obj [("tool_name", Json.str "multiply_numbers"),
               ("arguments", Json.obj [("a", Json.num 6), ("b", Json.num 7)])]]
    0
    { systemPrompt := "", streaming := false, streamAns := .ok "", nonStreamAns := .ok "",
      confirm := fun _ _ => true,
      dispatch := fun _ _ => .success (.num 42) }
    .running 0 []
    [{ callId := Json.str "call_1",
       result := successEnvelope
         (Json.str "Agent is now waiting for sub-agents to complete.") },
     { callId := Json.str "call_2", result := successEnvelope (Json.num 42) }]
    .waiting 2
    [("tool_name", Json.str "wait_for_agents"), ("arguments", Json.obj [])]
    (by decide) (by decide) (by decide) (by decide)

/-!
Section: Claim C2 — `$`-reference substitution inside lists
-/

/-- C2 (counterexample): a string element `$c1` appearing directly inside a
list value is NOT substituted by the resolver, although `c1` names a prior
result carrying `output` 42 — the argument dict comes back unchanged,
refuting the claim that substitution recurses into string elements of
lists. -/
theorem C2_list_string_not_substituted :
    resolveArgumentReferences [("a", Json.arr [Json.str "$c1"])]
        [(Json.str "c1", successEnvelope (Json.num 42))] =
      .ok [("a", Json.arr [Json.str "$c1"])] ∧
    resultsLookup [(Json.str "c1", successEnvelope (Json.num 42))] "c1" =
      some (successEnvelope (Json.num 42)) ∧
    objGet (successEnvelope (Json.num 42)) "output" = some (Json.num 42) := by
  refine ⟨rfl, rfl, rfl⟩

/-- C2 (amended): any string value `$<call_id>` of a previously executed
call is replaced by that call's `output` field, and the substitution
recurses into nested objects (any object path); inside a list value only
object elements are recursed into — every non-object element, in
particular a string `$<call_id>`, is left unchanged. -/
theorem C2_ref_substitution :
    (∀ (args : List (String × Json)) (m : ResultsById) (path : List String)
        (s : String) (r : List (String × Json)) (out : Json)
        (args2 : List (String × Json)),
        getObjPath path args = some (.str s) →
        strStartsWith s "$" = true →
        resultsLookup m (strDrop s 1) = some r →
        objGet r "output" = some out →
        resolveArgumentReferences args m = .ok args2 →
        getObjPath path args2 = some out) ∧
    (∀ (args args2 : List (String × Json)) (m : ResultsById) (k : String)
        (items : List Json),
        objGet args k = some (.arr items) →
        resolveArgumentReferences args m = .ok args2 →
        ∃ items2, objGet args2 k = some (.arr items2) ∧
          items2.length = items.length ∧
          ∀ i item, items.get? i = some item → item.isObj = false →
            items2.get? i = some item) := by
  constructor
  · intro args m path
    induction path generalizing args with
    | nil => intro s r out args2 hpath; rw [getObjPath] at hpath; simp at hpath
    | cons k rest ih =>
      intro s r out args2 hpath hstart hlook hout hok
      cases rest with
      | nil =>
        rw [getObjPath] at hpath
        obtain ⟨v2, hget2, hres⟩ := resolve_objGet hok hpath
        rw [resolveOneValue] at hres
        simp only [if_pos hstart, hlook, hout] at hres
        simp only [Option.getD_some, Except.ok.injEq] at hres
        rw [getObjPath, hget2, hres]
      | cons k2 rest2 =>
        rw [getObjPath.eq_def] at hpath
        dsimp only at hpath
        cases hob : objGet args k with
        | none => rw [hob] at hpath; simp at hpath
        | some vk =>
          rw [hob] at hpath
          cases vk with
          | obj fs =>
            obtain ⟨v2, hget2, hres⟩ := resolve_objGet hok hob
            rw [resolveOneValue] at hres
            rw [except_bind_ok] at hres
            obtain ⟨fs2, hfs2, hres⟩ := hres
            simp only [Except.ok.injEq] at hres
            subst hres
            rw [getObjPath.eq_def]
            dsimp only
            rw [hget2]
            exact ih fs s r out fs2 hpath hstart hlook hout hfs2
          | null => simp at hpath
          | bool b => simp at hpath
          | num x => simp at hpath
          | str s2 => simp at hpath
          | arr xs => simp at hpath
  · intro args args2 m k items hget hok
    obtain ⟨v2, hget2, hres⟩ := resolve_objGet hok hget
    rw [resolveOneValue] at hres
    rw [except_bind_ok] at hres
    obtain ⟨items2, hitems2, hres⟩ := hres
    simp only [Except.ok.injEq] at hres
    subst hres
    obtain ⟨hlen, hkeep⟩ := resolveListItems_spec hitems2
    exact ⟨items2, hget2, hlen, hkeep⟩

/-- C2 (witness): both parts of the amended claim applied at a concrete
batch — the object-nested reference `args[a][b] = $c1` is substituted by
the recorded output 7, while the same reference as a bare string inside
the list `args[l]` is kept verbatim. -/
theorem C2_ref_substitution_witness :
    getObjPath ["a", "b"]
        [("a", Json.obj [("b", Json.num 7)]), ("l", Json.arr [Json.str "$c1"])] =
      some (Json.num 7) ∧
    (∃ items2,
      objGet [("a", Json.obj [("b", Json.num 7)]), ("l", Json.arr [Json.str "$c1"])] "l" =
        some (.arr items2) ∧
      items2.length = [Json.str "$c1"].length ∧
      ∀ i item, [Json.str "$c1"].get? i = some item → item.isObj = false →
        items2.get? i = some item) :=
  ⟨C2_ref_substitution.1
      [("a", Json.obj [("b", Json.str "$c1")]), ("l", Json.arr [Json.str "$c1"])]
      [(Json.str "c1", successEnvelope (Json.num 7))] ["a", "b"] "$c1"
      (successEnvelope (Json.num 7)) (Json.num 7)
      [("a", Json.obj [("b", Json.num 7)]), ("l", Json.arr [Json.str "$c1"])]
      (by decide) (by decide) (by decide) (by decide) (by decide),
   C2_ref_substitution.2
      [("a", Json.obj [("b", Json.str "$c1")]), ("l", Json.arr [Json.str "$c1"])]
      [("a", Json.obj [("b", Json.num 7)]), ("l", Json.arr [Json.str "$c1"])]
      [(Json.str "c1", successEnvelope (Json.num 7))] "l" [Json.str "$c1"]
      (by decide) (by decide)⟩

/-!
Section: Claim C9 — references to results without an `output` field
-/

/-- C9 (counterexample): the claim classifies the `wait_for_agents`
confirmation among results with no `output` field, whose references would
resolve to null. In fact the recorded confirmation envelope carries an
`output` field, the batch continues past the wait call, and a later
`$`-reference to it resolves to the confirmation text, not to null. -/
theorem C9_wait_confirmation_has_output :
    executeToolCalls
      { systemPrompt := "", streaming := false, streamAns := .ok "", nonStreamAns := .ok "",
        confirm := fun _ _ => true,
        dispatch := fun _ args => .success (.obj args) }
      .running 0 []
      [Json.obj [("call_id", Json.str "w"), ("tool_name", Json.str "wait_for_agents"),
                 ("arguments", Json.obj [])],
       Json.obj [("tool_name", Json.str "echo"),
                 ("arguments", Json.obj [("x", Json.str "$w")])]] =
      .ok
        [{ callId := Json.str "w",
           result := successEnvelope
             (Json.str "Agent is now waiting for sub-agents to complete.") },
         { callId := Json.str "call_2",
           result := successEnvelope
             (Json.obj [("x", Json.str "Agent is now waiting for sub-agents to complete.")]) }]
        .waiting 2 ∧
    objGet (successEnvelope (Json.str "Agent is now waiting for sub-agents to complete."))
        "output" =
      some (Json.str "Agent is now waiting for sub-agents to complete.") := by
  refine ⟨rfl, rfl⟩

/-- C9 (amended): a `$`-reference naming a prior call whose recorded
result has no `output` field (an error envelope) is not reported as an
invalid reference — the resolver silently substitutes null; and whenever
resolution raises the invalid-reference error, some inspected reference id
has no recorded result at all. -/
theorem C9_missing_output_resolves_to_null :
    (∀ (m : ResultsById) (s : String) (r : List (String × Json)),
        strStartsWith s "$" = true →
        resultsLookup m (strDrop s 1) = some r →
        objGet r "output" = none →
        resolveOneValue (.str s) m = .ok Json.null) ∧
    (∀ (args : List (String × Json)) (m : ResultsById) (e : String),
        resolveArgumentReferences args m = .error e →
        ∃ id, id ∈ refsOfArgs args ∧ resultsLookup m id = none) := by
  constructor
  · intro m s r hstart hlook hnone
    rw [resolveOneValue]
    simp only [if_pos hstart, hlook, hnone, Option.getD_none]
  · intro args m e herr
    exact (refs_aux (sizeOf args)).1 args m e (le_refl _) herr

/-- C9 (witness): at a concrete map, a reference to an error envelope
(which has no `output` field) resolves to null without an error, and a
resolution error at a dangling reference `$zz` exhibits the missing id. -/
theorem C9_missing_output_witness :
    resolveOneValue (.str "$c1") [(Json.str "c1", errEnvelope "boom")] = .ok Json.null ∧
    ∃ id, id ∈ refsOfArgs [("x", Json.str "$zz")] ∧
      resultsLookup [(Json.str "c1", errEnvelope "boom")] id = none :=
  ⟨C9_missing_output_resolves_to_null.1 [(Json.str "c1", errEnvelope "boom")] "$c1"
      (errEnvelope "boom") (by decide) (by decide) (by decide),
   C9_missing_output_resolves_to_null.2 [("x", Json.str "$zz")]
      [(Json.str "c1", errEnvelope "boom")]
      ("Invalid reference: Tool result for " ++ sq ++ "zz" ++ sq ++ " not found.")
      (by decide)⟩

/-!
Section: Helper lemmas about `run_turn`
-/

/-- Under the history invariant, the head refresh rewrites exactly the
system message's content. -/
theorem refreshSystemHead_of_system {sp : String} {h : List Msg}
    (hne : h ≠ []) (hhead : h.head?.map Msg.role = some "system") :
    refreshSystemHead sp h = { role := "system", content := sp } :: h.tail := by
  cases h with
  | nil => exact absurd rfl hne
  | cons m rest =>
    have hrole : m.role = "system" := by simpa using hhead
    rw [refreshSystemHead, if_pos hrole, hrole]
    rfl

/-- Every normal return of `run_turn` is one of the three observable turn
outcomes, and the `is_main` flag is untouched. -/
theorem runTurn_returned_forms :
    ∀ (env : KernelEnv) (agent : Agent) (ctr : Nat) (a2 : Agent) (ctr2 : Nat),
      runTurn env agent ctr = .returned a2 ctr2 →
      (turnFinal (refreshSystemHead env.systemPrompt agent.history) a2 ∨
       turnToolBatch (refreshSystemHead env.systemPrompt agent.history) a2 ∨
       turnInterrupted (refreshSystemHead env.systemPrompt agent.history) a2) ∧
      a2.isMain = agent.isMain := by
  intro env agent ctr a2 ctr2 hret
  rw [runTurn] at hret
  (try dsimp only at hret)
  cases hmode : env.streaming && agent.isMain with
  | true =>
    rw [hmode] at hret
    simp only [if_true] at hret
    cases hans : env.streamAns with
    | transportError e => rw [hans] at hret; cases hret
    | interrupted p =>
      rw [hans] at hret
      simp only [if_true] at hret
      cases hret
      exact ⟨Or.inr (Or.inr ⟨rfl, rfl⟩), rfl⟩
    | ok t =>
      rw [hans] at hret
      simp only [Bool.false_eq_true, if_false] at hret
      cases hex : extractToolContent t with
      | none =>
        rw [hex] at hret
        (try dsimp only at hret)
        cases hret
        exact ⟨Or.inl ⟨rfl, t, rfl⟩, rfl⟩
      | some tc =>
        rw [hex] at hret
        (try dsimp only at hret)
        by_cases htc : tc = ""
        · rw [if_pos htc] at hret
          cases hret
          exact ⟨Or.inl ⟨rfl, t, rfl⟩, rfl⟩
        · rw [if_neg htc] at hret
          cases hjson : jsonLoads tc with
          | error e =>
            rw [hjson] at hret
            (try dsimp only at hret)
            cases hret
            refine ⟨Or.inr (Or.inl ⟨Or.inl rfl, tc,
              "Error: Invalid tool format. Expected a JSON list within <tool> tags. Parser error: "
                ++ e, ?_⟩), rfl⟩
            simp [List.append_assoc]
          | ok j =>
            cases j with
            | arr calls =>
              rw [hjson] at hret
              (try dsimp only at hret)
              cases hexec : executeToolCalls env .running ctr [] calls with
              | raised msg => rw [hexec] at hret; cases hret
              | ok entries st0 ctr0 =>
                rw [hexec] at hret
                (try dsimp only at hret)
                cases hret
                refine ⟨Or.inr (Or.inl ⟨?_, tc,
                  "```json\n" ++ pyDumps2 0 (entriesToJson entries) ++ "\n```", ?_⟩), rfl⟩
                · by_cases hw : st0 = AgentStatus.waiting
                  · rw [if_pos hw]; exact Or.inr rfl
                  · rw [if_neg hw]; exact Or.inl rfl
                · have hsplit : ("TOOL_EXECUTION_RESULT:\n```json\n" : String) =
                      "TOOL_EXECUTION_RESULT:\n" ++ "```json\n" := rfl
                  simp only [List.append_assoc, List.cons_append, List.nil_append,
                    List.append_cancel_left_eq, List.cons.injEq, Msg.mk.injEq, and_true, true_and]
                  exact (congrArg
                    (fun x => x ++ (pyDumps2 0 (entriesToJson entries) ++ "\n```")) hsplit).trans
                    (String.append_assoc _ _ _)
            | null =>
              rw [hjson] at hret
              (try dsimp only at hret)
              (try dsimp only at hret)
              cases hret
              refine ⟨Or.inr (Or.inl ⟨Or.inl rfl, tc,
                "Error: Invalid tool format. Expected a JSON list within <tool> tags. Parser error: "
                  ++ "Tool content is not a JSON list.", ?_⟩), rfl⟩
              simp [List.append_assoc]
            | bool b =>
              rw [hjson] at hret
              (try dsimp only at hret)
              (try dsimp only at hret)
              cases hret
              refine ⟨Or.inr (Or.inl ⟨Or.inl rfl, tc,
                "Error: Invalid tool format. Expected a JSON list within <tool> tags. Parser error: "
                  ++ "Tool content is not a JSON list.", ?_⟩), rfl⟩
              simp [List.append_assoc]
            | num x =>
              rw [hjson] at hret
              (try dsimp only at hret)
              (try dsimp only at hret)
              cases hret
              refine ⟨Or.inr (Or.inl ⟨Or.inl rfl, tc,
                "Error: Invalid tool format. Expected a JSON list within <tool> tags. Parser error: "
                  ++ "Tool content is not a JSON list.", ?_⟩), rfl⟩
              simp [List.append_assoc]
            | str s =>
              rw [hjson] at hret
              (try dsimp only at hret)
              (try dsimp only at hret)
              cases hret
              refine ⟨Or.inr (Or.inl ⟨Or.inl rfl, tc,
                "Error: Invalid tool format. Expected a JSON list within <tool> tags. Parser error: "
                  ++ "Tool content is not a JSON list.", ?_⟩), rfl⟩
              simp [List.append_assoc]
            | obj fs =>
              rw [hjson] at hret
              (try dsimp only at hret)
              (try dsimp only at hret)
              cases hret
              refine ⟨Or.inr (Or.inl ⟨Or.inl rfl, tc,
                "Error: Invalid tool format. Expected a JSON list within <tool> tags. Parser error: "
                  ++ "Tool content is not a JSON list.", ?_⟩), rfl⟩
              simp [List.append_assoc]
  | false =>
    rw [hmode] at hret
    simp only [Bool.false_eq_true, if_false] at hret
    cases hans : env.nonStreamAns with
    | ok t =>
      rw [hans] at hret
      simp only [Bool.false_eq_true, if_false] at hret
      cases hex : extractToolContent t with
      | none =>
        rw [hex] at hret
        (try dsimp only at hret)
        cases hret
        exact ⟨Or.inl ⟨rfl, t, rfl⟩, rfl⟩
      | some tc =>
        rw [hex] at hret
        (try dsimp only at hret)
        by_cases htc : tc = ""
        · rw [if_pos htc] at hret
          cases hret
          exact ⟨Or.inl ⟨rfl, t, rfl⟩, rfl⟩
        · rw [if_neg htc] at hret
          cases hjson : jsonLoads tc with
          | error e =>
            rw [hjson] at hret
            (try dsimp only at hret)
            cases hret
            refine ⟨Or.inr (Or.inl ⟨Or.inl rfl, tc,
              "Error: Invalid tool format. Expected a JSON list within <tool> tags. Parser error: "
                ++ e, ?_⟩), rfl⟩
            simp [List.append_assoc]
          | ok j =>
            cases j with
            | arr calls =>
              rw [hjson] at hret
              (try dsimp only at hret)
              cases hexec : executeToolCalls env .running ctr [] calls with
              | raised msg => rw [hexec] at hret; cases hret
              | ok entries st0 ctr0 =>
                rw [hexec] at hret
                (try dsimp only at hret)
                cases hret
                refine ⟨Or.inr (Or.inl ⟨?_, tc,
                  "```json\n" ++ pyDumps2 0 (entriesToJson entries) ++ "\n```", ?_⟩), rfl⟩
                · by_cases hw : st0 = AgentStatus.waiting
                  · rw [if_pos hw]; exact Or.inr rfl
                  · rw [if_neg hw]; exact Or.inl rfl
                · have hsplit : ("TOOL_EXECUTION_RESULT:\n```json\n" : String) =
                      "TOOL_EXECUTION_RESULT:\n" ++ "```json\n" := rfl
                  simp only [List.append_assoc, List.cons_append, List.nil_append,
                    List.append_cancel_left_eq, List.cons.injEq, Msg.mk.injEq, and_true, true_and]
                  exact (congrArg
                    (fun x => x ++ (pyDumps2 0 (entriesToJson entries) ++ "\n```")) hsplit).trans
                    (String.append_assoc _ _ _)
            | null =>
              rw [hjson] at hret
              (try dsimp only at hret)
              (try dsimp only at hret)
              cases hret
              refine ⟨Or.inr (Or.inl ⟨Or.inl rfl, tc,
                "Error: Invalid tool format. Expected a JSON list within <tool> tags. Parser error: "
                  ++ "Tool content is not a JSON list.", ?_⟩), rfl⟩
              simp [List.append_assoc]
            | bool b =>
              rw [hjson] at hret
              (try dsimp only at hret)
              (try dsimp only at hret)
              cases hret
              refine ⟨Or.inr (Or.inl ⟨Or.inl rfl, tc,
                "Error: Invalid tool format. Expected a JSON list within <tool> tags. Parser error: "
                  ++ "Tool content is not a JSON list.", ?_⟩), rfl⟩
              simp [List.append_assoc]
            | num x =>
              rw [hjson] at hret
              (try dsimp only at hret)
              (try dsimp only at hret)
              cases hret
              refine ⟨Or.inr (Or.inl ⟨Or.inl rfl, tc,
                "Error: Invalid tool format. Expected a JSON list within <tool> tags. Parser error: "
                  ++ "Tool content is not a JSON list.", ?_⟩), rfl⟩
              simp [List.append_assoc]
            | str s =>
              rw [hjson] at hret
              (try dsimp only at hret)
              (try dsimp only at hret)
              cases hret
              refine ⟨Or.inr (Or.inl ⟨Or.inl rfl, tc,
                "Error: Invalid tool format. Expected a JSON list within <tool> tags. Parser error: "
                  ++ "Tool content is not a JSON list.", ?_⟩), rfl⟩
              simp [List.append_assoc]
            | obj fs =>
              rw [hjson] at hret
              (try dsimp only at hret)
              (try dsimp only at hret)
              cases hret
              refine ⟨Or.inr (Or.inl ⟨Or.inl rfl, tc,
                "Error: Invalid tool format. Expected a JSON list within <tool> tags. Parser error: "
                  ++ "Tool content is not a JSON list.", ?_⟩), rfl⟩
              simp [List.append_assoc]
    | transportError e =>
      rw [hans] at hret
      simp only [Bool.false_eq_true, if_false] at hret
      cases hex : extractToolContent ("Error: Could not contact LLM. " ++ e) with
      | none =>
        rw [hex] at hret
        (try dsimp only at hret)
        cases hret
        exact ⟨Or.inl ⟨rfl, _, rfl⟩, rfl⟩
      | some tc =>
        rw [hex] at hret
        (try dsimp only at hret)
        by_cases htc : tc = ""
        · rw [if_pos htc] at hret
          cases hret
          exact ⟨Or.inl ⟨rfl, _, rfl⟩, rfl⟩
        · rw [if_neg htc] at hret
          cases hjson : jsonLoads tc with
          | error e2 =>
            rw [hjson] at hret
            (try dsimp only at hret)
            cases hret
            refine ⟨Or.inr (Or.inl ⟨Or.inl rfl, tc,
              "Error: Invalid tool format. Expected a JSON list within <tool> tags. Parser error: "
                ++ e2, ?_⟩), rfl⟩
            simp [List.append_assoc]
          | ok j =>
            cases j with
            | arr calls =>
              rw [hjson] at hret
              (try dsimp only at hret)
              cases hexec : executeToolCalls env .running ctr [] calls with
              | raised msg => rw [hexec] at hret; cases hret
              | ok entries st0 ctr0 =>
                rw [hexec] at hret
                (try dsimp only at hret)
                cases hret
                refine ⟨Or.inr (Or.inl ⟨?_, tc,
                  "```json\n" ++ pyDumps2 0 (entriesToJson entries) ++ "\n```", ?_⟩), rfl⟩
                · by_cases hw : st0 = AgentStatus.waiting
                  · rw [if_pos hw]; exact Or.inr rfl
                  · rw [if_neg hw]; exact Or.inl rfl
                · have hsplit : ("TOOL_EXECUTION_RESULT:\n```json\n" : String) =
                      "TOOL_EXECUTION_RESULT:\n" ++ "```json\n" := rfl
                  simp only [List.append_assoc, List.cons_append, List.nil_append,
                    List.append_cancel_left_eq, List.cons.injEq, Msg.mk.injEq, and_true, true_and]
                  exact (congrArg
                    (fun x => x ++ (pyDumps2 0 (entriesToJson entries) ++ "\n```")) hsplit).trans
                    (String.append_assoc _ _ _)
            | null =>
              rw [hjson] at hret
              (try dsimp only at hret)
              (try dsimp only at hret)
              cases hret
              refine ⟨Or.inr (Or.inl ⟨Or.inl rfl, tc,
                "Error: Invalid tool format. Expected a JSON list within <tool> tags. Parser error: "
                  ++ "Tool content is not a JSON list.", ?_⟩), rfl⟩
              simp [List.append_assoc]
            | bool b =>
              rw [hjson] at hret
              (try dsimp only at hret)
              (try dsimp only at hret)
              cases hret
              refine ⟨Or.inr (Or.inl ⟨Or.inl rfl, tc,
                "Error: Invalid tool format. Expected a JSON list within <tool> tags. Parser error: "
                  ++ "Tool content is not a JSON list.", ?_⟩), rfl⟩
              simp [List.append_assoc]
            | num x =>
              rw [hjson] at hret
              (try dsimp only at hret)
              (try dsimp only at hret)
              cases hret
              refine ⟨Or.inr (Or.inl ⟨Or.inl rfl, tc,
                "Error: Invalid tool format. Expected a JSON list within <tool> tags. Parser error: "
                  ++ "Tool content is not a JSON list.", ?_⟩), rfl⟩
              simp [List.append_assoc]
            | str s =>
              rw [hjson] at hret
              (try dsimp only at hret)
              (try dsimp only at hret)
              cases hret
              refine ⟨Or.inr (Or.inl ⟨Or.inl rfl, tc,
                "Error: Invalid tool format. Expected a JSON list within <tool> tags. Parser error: "
                  ++ "Tool content is not a JSON list.", ?_⟩), rfl⟩
              simp [List.append_assoc]
            | obj fs =>
              rw [hjson] at hret
              (try dsimp only at hret)
              (try dsimp only at hret)
              cases hret
              refine ⟨Or.inr (Or.inl ⟨Or.inl rfl, tc,
                "Error: Invalid tool format. Expected a JSON list within <tool> tags. Parser error: "
                  ++ "Tool content is not a JSON list.", ?_⟩), rfl⟩
              simp [List.append_assoc]

/-- The three observable turn outcomes are pairwise exclusive. -/
theorem turn_cases_disjoint (h0 : List Msg) (a2 : Agent) :
    ¬(turnFinal h0 a2 ∧ turnToolBatch h0 a2) ∧
    ¬(turnFinal h0 a2 ∧ turnInterrupted h0 a2) ∧
    ¬(turnToolBatch h0 a2 ∧ turnInterrupted h0 a2) := by
  refine ⟨?_, ?_, ?_⟩
  · rintro ⟨⟨hd, -⟩, ⟨hrw, -⟩⟩
    rcases hrw with h | h <;> rw [hd] at h <;> cases h
  · rintro ⟨⟨-, t, hh⟩, ⟨-, hh2⟩⟩
    rw [hh2] at hh
    have := congrArg List.length hh
    simp at this
  · rintro ⟨⟨hrw, -⟩, ⟨hd, -⟩⟩
    rcases hrw with h | h <;> rw [hd] at h <;> cases h

/-- The only way `run_turn` ends the process is the streaming transport
failure, with exit code 1. -/
theorem runTurn_exited_only_stream_failure :
    ∀ (env : KernelEnv) (agent : Agent) (ctr : Nat) (code : Nat),
      runTurn env agent ctr = .exited code →
      code = 1 ∧ env.streaming = true ∧ agent.isMain = true ∧
        ∃ e, env.streamAns = .transportError e := by
  intro env agent ctr code hret
  rw [runTurn] at hret
  dsimp only at hret
  cases hmode : env.streaming && agent.isMain with
  | true =>
    rw [hmode] at hret
    simp only [if_true] at hret
    cases hans : env.streamAns with
    | transportError e =>
      rw [hans] at hret
      cases hret
      obtain ⟨hs, hm⟩ := Bool.and_eq_true_iff.mp hmode
      exact ⟨rfl, hs, hm, e, rfl⟩
    | interrupted p =>
      rw [hans] at hret
      simp only [if_true] at hret
      cases hret
    | ok t =>
      rw [hans] at hret
      simp only [Bool.false_eq_true, if_false] at hret
      cases hex : extractToolContent t with
      | none => rw [hex] at hret; (try dsimp only at hret); cases hret
      | some tc =>
        rw [hex] at hret
        (try dsimp only at hret)
        by_cases htc : tc = ""
        · rw [if_pos htc] at hret; cases hret
        · rw [if_neg htc] at hret
          cases hjson : jsonLoads tc with
          | error e => rw [hjson] at hret; (try dsimp only at hret); cases hret
          | ok j =>
            cases j with
            | arr calls =>
              rw [hjson] at hret
              (try dsimp only at hret)
              cases hexec : executeToolCalls env .running ctr [] calls with
              | raised msg => rw [hexec] at hret; (try dsimp only at hret); cases hret
              | ok entries st0 ctr0 => rw [hexec] at hret; (try dsimp only at hret); cases hret
            | null => rw [hjson] at hret; (try dsimp only at hret); cases hret
            | bool b => rw [hjson] at hret; (try dsimp only at hret); cases hret
            | num x => rw [hjson] at hret; (try dsimp only at hret); cases hret
            | str s2 => rw [hjson] at hret; (try dsimp only at hret); cases hret
            | obj fs => rw [hjson] at hret; (try dsimp only at hret); cases hret
  | false =>
    rw [hmode] at hret
    simp only [Bool.false_eq_true, if_false] at hret
    cases hans : env.nonStreamAns with
    | ok t =>
      rw [hans] at hret
      simp only [Bool.false_eq_true, if_false] at hret
      cases hex : extractToolContent t with
      | none => rw [hex] at hret; (try dsimp only at hret); cases hret
      | some tc =>
        rw [hex] at hret
        (try dsimp only at hret)
        by_cases htc : tc = ""
        · rw [if_pos htc] at hret; cases hret
        · rw [if_neg htc] at hret
          cases hjson : jsonLoads tc with
          | error e => rw [hjson] at hret; (try dsimp only at hret); cases hret
          | ok j =>
            cases j with
            | arr calls =>
              rw [hjson] at hret
              (try dsimp only at hret)
              cases hexec : executeToolCalls env .running ctr [] calls with
              | raised msg => rw [hexec] at hret; (try dsimp only at hret); cases hret
              | ok entries st0 ctr0 => rw [hexec] at hret; (try dsimp only at hret); cases hret
            | null => rw [hjson] at hret; (try dsimp only at hret); cases hret
            | bool b => rw [hjson] at hret; (try dsimp only at hret); cases hret
            | num x => rw [hjson] at hret; (try dsimp only at hret); cases hret
            | str s2 => rw [hjson] at hret; (try dsimp only at hret); cases hret
            | obj fs => rw [hjson] at hret; (try dsimp only at hret); cases hret
    | transportError e =>
      rw [hans] at hret
      simp only [Bool.false_eq_true, if_false] at hret
      cases hex : extractToolContent ("Error: Could not contact LLM. " ++ e) with
      | none => rw [hex] at hret; (try dsimp only at hret); cases hret
      | some tc =>
        rw [hex] at hret
        (try dsimp only at hret)
        by_cases htc : tc = ""
        · rw [if_pos htc] at hret; cases hret
        · rw [if_neg htc] at hret
          cases hjson : jsonLoads tc with
          | error e2 => rw [hjson] at hret; (try dsimp only at hret); cases hret
          | ok j =>
            cases j with
            | arr calls =>
              rw [hjson] at hret
              (try dsimp only at hret)
              cases hexec : executeToolCalls env .running ctr [] calls with
              | raised msg => rw [hexec] at hret; (try dsimp only at hret); cases hret
              | ok entries st0 ctr0 => rw [hexec] at hret; (try dsimp only at hret); cases hret
            | null => rw [hjson] at hret; (try dsimp only at hret); cases hret
            | bool b => rw [hjson] at hret; (try dsimp only at hret); cases hret
            | num x => rw [hjson] at hret; (try dsimp only at hret); cases hret
            | str s2 => rw [hjson] at hret; (try dsimp only at hret); cases hret
            | obj fs => rw [hjson] at hret; (try dsimp only at hret); cases hret

/-!
Section: Claim C3 — postcondition of `run_turn`
-/

/-- C3 (counterexample): a turn whose streaming LLM call is interrupted by
the user returns with status DONE but with NO message appended — neither a
final assistant message (case a) nor a tool batch with a
`TOOL_EXECUTION_RESULT` (case b) holds, refuting the claim that exactly
one of the two always holds after `run_turn`. -/
theorem C3_interrupted_turn_neither_case :
    runTurn
      { systemPrompt := "SP", streaming := true, streamAns := .interrupted "part",
        nonStreamAns := .ok "", confirm := fun _ _ => true,
        dispatch := fun _ _ => .success .null }
      { history := [{ role := "system", content := "old" }, { role := "user", content := "hi" }],
        status := .ready, isMain := true } 0 =
      .returned
        { history := [{ role := "system", content := "SP" }, { role := "user", content := "hi" }],
          status := .done, isMain := true } 0 ∧
    ¬ turnFinal [{ role := "system", content := "SP" }, { role := "user", content := "hi" }]
        { history := [{ role := "system", content := "SP" }, { role := "user", content := "hi" }],
          status := .done, isMain := true } ∧
    ¬ turnToolBatch [{ role := "system", content := "SP" }, { role := "user", content := "hi" }]
        { history := [{ role := "system", content := "SP" }, { role := "user", content := "hi" }],
          status := .done, isMain := true } := by
  refine ⟨rfl, ?_, ?_⟩
  · rintro ⟨-, t, hh⟩
    have := congrArg List.length hh
    simp at this
  · rintro ⟨hst, -⟩
    rcases hst with h | h <;> cases h

/-- C3 (amended): for every invocation of RunTurn on an agent satisfying
the preconditions, after RunTurn returns exactly one of the following
holds: (a) a final assistant message was appended and the status is DONE;
(b) a tool-batch assistant message plus a TOOL_EXECUTION_RESULT message
were appended and the status is READY or WAITING; (c) the streaming LLM
call was cancelled by the user — nothing was appended and the status is
DONE. (RunTurn fails to return only by exiting the process on a streaming
transport failure, always with code 1, or by propagating a runtime error
on a malformed tool-call element.) -/
theorem C3_run_turn_exactly_one_outcome :
    ∀ (env : KernelEnv) (agent : Agent) (ctr : Nat),
      agent.status = .ready →
      agent.history ≠ [] →
      agent.history.head?.map Msg.role = some "system" →
      (∀ a2 ctr2, runTurn env agent ctr = .returned a2 ctr2 →
        (turnFinal (refreshSystemHead env.systemPrompt agent.history) a2 ∨
         turnToolBatch (refreshSystemHead env.systemPrompt agent.history) a2 ∨
         turnInterrupted (refreshSystemHead env.systemPrompt agent.history) a2) ∧
        ¬(turnFinal (refreshSystemHead env.systemPrompt agent.history) a2 ∧
          turnToolBatch (refreshSystemHead env.systemPrompt agent.history) a2) ∧
        ¬(turnFinal (refreshSystemHead env.systemPrompt agent.history) a2 ∧
          turnInterrupted (refreshSystemHead env.systemPrompt agent.history) a2) ∧
        ¬(turnToolBatch (refreshSystemHead env.systemPrompt agent.history) a2 ∧
          turnInterrupted (refreshSystemHead env.systemPrompt agent.history) a2)) ∧
      (∀ code, runTurn env agent ctr = .exited code →
        code = 1 ∧ env.streaming = true ∧ agent.isMain = true ∧
          ∃ e, env.streamAns = .transportError e) := by
  intro env agent ctr _ _ _
  constructor
  · intro a2 ctr2 hret
    exact ⟨(runTurn_returned_forms env agent ctr a2 ctr2 hret).1,
      turn_cases_disjoint (refreshSystemHead env.systemPrompt agent.history) a2⟩
  · intro code hret
    exact runTurn_exited_only_stream_failure env agent ctr code hret

/-- C3 (witness): the amended statement at a concrete plain-answer turn —
the LLM answers "hello" without a tool block, and the final-answer case
(a) holds exclusively. -/
theorem C3_run_turn_witness :
    (turnFinal
        [{ role := "system", content := "SP" }, { role := "user", content := "hi" }]
        { history := [{ role := "system", content := "SP" }, { role := "user", content := "hi" },
                      { role := "assistant", content := "hello" }],
          status := .done, isMain := false } ∨
     turnToolBatch
        [{ role := "system", content := "SP" }, { role := "user", content := "hi" }]
        { history := [{ role := "system", content := "SP" }, { role := "user", content := "hi" },
                      { role := "assistant", content := "hello" }],
          status := .done, isMain := false } ∨
     turnInterrupted
        [{ role := "system", content := "SP" }, { role := "user", content := "hi" }]
        { history := [{ role := "system", content := "SP" }, { role := "user", content := "hi" },
                      { role := "assistant", content := "hello" }],
          status := .done, isMain := false }) ∧
    ¬(turnFinal
        [{ role := "system", content := "SP" }, { role := "user", content := "hi" }]
        { history := [{ role := "system", content := "SP" }, { role := "user", content := "hi" },
                      { role := "assistant", content := "hello" }],
          status := .done, isMain := false } ∧
      turnToolBatch
        [{ role := "system", content := "SP" }, { role := "user", content := "hi" }]
        { history := [{ role := "system", content := "SP" }, { role := "user", content := "hi" },
                      { role := "assistant", content := "hello" }],
          status := .done, isMain := false }) := by
  have hmain :=
    (C3_run_turn_exactly_one_outcome
      { systemPrompt := "SP", streaming := false, streamAns := .ok "",
        nonStreamAns := .ok "hello", confirm := fun _ _ => true,
        dispatch := fun _ _ => .success .null }
      { history := [{ role := "system", content := "old" }, { role := "user", content := "hi" }],
        status := .ready, isMain := false } 0 rfl (by simp) rfl).1
      { history := [{ role := "system", content := "SP" }, { role := "user", content := "hi" },
                    { role := "assistant", content := "hello" }],
        status := .done, isMain := false } 0 rfl
  exact ⟨hmain.1, hmain.2.1⟩

/-!
Section: Claim C5 — the leading system message
-/

/-- C5: agent creation places a system message first, and `run_turn` only
rewrites the content of `history[0]` or appends messages: after every
normal return the history is non-empty, starts with the (refreshed) system
message, and extends the refreshed pre-turn history. -/
theorem C5_history_head_always_system :
    (∀ sp ip, createAgentHistory sp ip ≠ [] ∧
      (createAgentHistory sp ip).head?.map Msg.role = some "system") ∧
    (∀ (env : KernelEnv) (agent : Agent) (ctr : Nat) (a2 : Agent) (ctr2 : Nat),
      agent.history ≠ [] →
      agent.history.head?.map Msg.role = some "system" →
      runTurn env agent ctr = .returned a2 ctr2 →
      a2.history ≠ [] ∧ a2.history.head?.map Msg.role = some "system" ∧
      ∃ suffix, a2.history =
        ({ role := "system", content := env.systemPrompt } :: agent.history.tail) ++ suffix) := by
  constructor
  · intro sp ip
    exact ⟨by simp [createAgentHistory], rfl⟩
  · intro env agent ctr a2 ctr2 hne hhead hret
    have hrefresh := @refreshSystemHead_of_system env.systemPrompt agent.history hne hhead
    have hsuf : ∃ suffix, a2.history =
        ({ role := "system", content := env.systemPrompt } :: agent.history.tail) ++ suffix := by
      rcases (runTurn_returned_forms env agent ctr a2 ctr2 hret).1 with
        ⟨-, t, hh⟩ | ⟨-, t, fb, hh⟩ | ⟨-, hh⟩
      · rw [hrefresh] at hh
        exact ⟨_, hh⟩
      · rw [hrefresh] at hh
        exact ⟨_, hh⟩
      · rw [hrefresh] at hh
        exact ⟨[], by rw [hh]; simp⟩
    obtain ⟨suffix, hs⟩ := hsuf
    refine ⟨by rw [hs]; simp, by rw [hs]; rfl, suffix, hs⟩

/-- C5 (witness): the invariant at a concrete creation and a concrete
turn. -/
theorem C5_history_head_witness :
    (createAgentHistory "SP" "hi" ≠ [] ∧
      (createAgentHistory "SP" "hi").head?.map Msg.role = some "system") ∧
    (({ history := [{ role := "system", content := "SP" }, { role := "user", content := "hi" },
                    { role := "assistant", content := "hello" }],
        status := .done, isMain := false } : Agent).history ≠ [] ∧
      ({ history := [{ role := "system", content := "SP" }, { role := "user", content := "hi" },
                     { role := "assistant", content := "hello" }],
         status := .done, isMain := false } : Agent).history.head?.map Msg.role =
        some "system" ∧
      ∃ suffix,
        ({ history := [{ role := "system", content := "SP" }, { role := "user", content := "hi" },
                       { role := "assistant", content := "hello" }],
           status := .done, isMain := false } : Agent).history =
          ({ role := "system", content := "SP" } ::
            ({ history := [{ role := "system", content := "old" },
                           { role := "user", content := "hi" }],
               status := .ready, isMain := false } : Agent).history.tail) ++ suffix) :=
  ⟨C5_history_head_always_system.1 "SP" "hi",
   C5_history_head_always_system.2
      { systemPrompt := "SP", streaming := false, streamAns := .ok "",
        nonStreamAns := .ok "hello", confirm := fun _ _ => true,
        dispatch := fun _ _ => .success .null }
      { history := [{ role := "system", content := "old" }, { role := "user", content := "hi" }],
        status := .ready, isMain := false } 0
      { history := [{ role := "system", content := "SP" }, { role := "user", content := "hi" },
                    { role := "assistant", content := "hello" }],
        status := .done, isMain := false } 0
      (by simp) rfl rfl⟩

/-!
Section: Claim C8 — LLM transport failure
-/

/-- C8 (counterexample): in streaming mode a transport error does NOT end
the turn normally — `run_turn` exits the process with code 1 and never
returns, refuting the claim for the streaming mode. -/
theorem C8_stream_transport_error_exits :
    runTurn
      { systemPrompt := "SP", streaming := true, streamAns := .transportError "conn refused",
        nonStreamAns := .ok "", confirm := fun _ _ => true,
        dispatch := fun _ _ => .success .null }
      { history := [{ role := "system", content := "old" }, { role := "user", content := "hi" }],
        status := .ready, isMain := true } 0 = .exited 1 ∧
    ¬ ∃ a2 ctr2,
      runTurn
        { systemPrompt := "SP", streaming := true, streamAns := .transportError "conn refused",
          nonStreamAns := .ok "", confirm := fun _ _ => true,
          dispatch := fun _ _ => .success .null }
        { history := [{ role := "system", content := "old" }, { role := "user", content := "hi" }],
          status := .ready, isMain := true } 0 = .returned a2 ctr2 := by
  refine ⟨rfl, ?_⟩
  rintro ⟨a2, ctr2, h⟩
  rw [show runTurn
      { systemPrompt := "SP", streaming := true, streamAns := .transportError "conn refused",
        nonStreamAns := .ok "", confirm := fun _ _ => true,
        dispatch := fun _ _ => .success .null }
      { history := [{ role := "system", content := "old" }, { role := "user", content := "hi" }],
        status := .ready, isMain := true } 0 = .exited 1 from rfl] at h
  cases h

/-- C8 (amended): a transport error in NON-streaming mode appends an
assistant error message and ends the turn normally with status DONE; in
streaming mode (of the main agent) a transport error terminates the
process with exit code 1 instead. -/
theorem C8_transport_error_behaviour :
    (∀ (env : KernelEnv) (agent : Agent) (ctr : Nat) (e : String),
      (env.streaming && agent.isMain) = false →
      env.nonStreamAns = .transportError e →
      extractToolContent ("Error: Could not contact LLM. " ++ e) = none →
      runTurn env agent ctr =
        .returned
          { agent with
            history := refreshSystemHead env.systemPrompt agent.history ++
              [{ role := "assistant", content := "Error: Could not contact LLM. " ++ e }],
            status := .done } ctr) ∧
    (∀ (env : KernelEnv) (agent : Agent) (ctr : Nat) (e : String),
      (env.streaming && agent.isMain) = true →
      env.streamAns = .transportError e →
      runTurn env agent ctr = .exited 1) := by
  constructor
  · intro env agent ctr e hmode hans hex
    rw [runTurn]
    dsimp only
    rw [hmode]
    simp only [Bool.false_eq_true, if_false]
    rw [hans]
    simp only [Bool.false_eq_true, if_false]
    rw [hex]
  · intro env agent ctr e hmode hans
    rw [runTurn]
    dsimp only
    rw [hmode]
    simp only [if_true]
    rw [hans]

/-- C8 (witness): both conjuncts of the amended claim at concrete
environments — the non-streaming error turn and the streaming process
exit. -/
theorem C8_transport_error_witness :
    runTurn
      { systemPrompt := "SP", streaming := false, streamAns := .ok "",
        nonStreamAns := .transportError "connection refused", confirm := fun _ _ => true,
        dispatch := fun _ _ => .success .null }
      { history := [{ role := "system", content := "old" }, { role := "user", content := "hi" }],
        status := .ready, isMain := true } 3 =
      .returned
        { history := [{ role := "system", content := "SP" }, { role := "user", content := "hi" },
                      { role := "assistant",
                        content := "Error: Could not contact LLM. " ++ "connection refused" }],
          status := .done, isMain := true } 3 ∧
    runTurn
      { systemPrompt := "SP", streaming := true, streamAns := .transportError "conn refused",
        nonStreamAns := .ok "", confirm := fun _ _ => true,
        dispatch := fun _ _ => .success .null }
      { history := [{ role := "system", content := "old" }, { role := "user", content := "hi" }],
        status := .ready, isMain := true } 7 = .exited 1 :=
  ⟨C8_transport_error_behaviour.1
      { systemPrompt := "SP", streaming := false, streamAns := .ok "",
        nonStreamAns := .transportError "connection refused", confirm := fun _ _ => true,
        dispatch := fun _ _ => .success .null }
      { history := [{ role := "system", content := "old" }, { role := "user", content := "hi" }],
        status := .ready, isMain := true } 3 "connection refused" rfl rfl (by decide),
   C8_transport_error_behaviour.2
      { systemPrompt := "SP", streaming := true, streamAns := .transportError "conn refused",
        nonStreamAns := .ok "", confirm := fun _ _ => true,
        dispatch := fun _ _ => .success .null }
      { history := [{ role := "system", content := "old" }, { role := "user", content := "hi" }],
        status := .ready, isMain := true } 7 "conn refused" rfl rfl⟩

/-!
Section: Claims C4 and C10 — the tool-gateway envelopes
-/

/-- Every response of the gateway's tool route is a 200 success envelope
`{status, result}` or a non-200 error body `{status, type, message}`. -/
theorem doPOST_response_forms :
    ∀ (env : GatewayEnv) (body : String) (code : Nat) (payload : Json),
      doPOST env "/mcp_tool_call" body = .response code payload →
      (code = 200 ∧ ∃ r, payload = .obj [("status", .str "success"), ("result", r)]) ∨
      (code ≠ 200 ∧ specErrorShape payload = true) := by
  intro env body code payload h
  rw [doPOST] at h
  rw [if_neg (by simp)] at h
  cases hl : jsonLoads body with
  | error e => rw [hl] at h; cases h
  | ok postData =>
    rw [hl] at h
    cases postData with
    | obj fields =>
      dsimp only at h
      cases hname : objGet fields "tool_name" with
      | none =>
        rw [hname] at h
        dsimp only [excResponse] at h
        cases h
        exact Or.inr ⟨by decide, rfl⟩
      | some j =>
        rw [hname] at h
        cases j with
        | str t =>
          dsimp only at h
          cases hmcp : env.mcpManagerPresent && env.mcpServes t with
          | true =>
            rw [hmcp] at h
            simp only [if_true] at h
            cases h
            exact Or.inl ⟨rfl, _, rfl⟩
          | false =>
            rw [hmcp] at h
            simp only [Bool.false_eq_true, if_false] at h
            cases himpl : env.internalImpl t with
            | none =>
              rw [himpl] at h
              dsimp only [excResponse] at h
              cases h
              exact Or.inr ⟨by decide, rfl⟩
            | some impl =>
              rw [himpl] at h
              dsimp only at h
              cases hkw : (objGet fields "arguments").getD (.obj []) with
              | obj kw =>
                rw [hkw] at h
                dsimp only at h
                cases hio : impl kw with
                | ok raw =>
                  rw [hio] at h
                  dsimp only at h
                  cases h
                  exact Or.inl ⟨rfl, _, rfl⟩
                | raises k msg =>
                  rw [hio] at h
                  cases k <;> dsimp only [excResponse] at h <;> cases h <;>
                    exact Or.inr ⟨by decide, rfl⟩
              | null =>
                rw [hkw] at h; dsimp only [excResponse] at h; cases h
                exact Or.inr ⟨by decide, rfl⟩
              | bool b =>
                rw [hkw] at h; dsimp only [excResponse] at h; cases h
                exact Or.inr ⟨by decide, rfl⟩
              | num x =>
                rw [hkw] at h; dsimp only [excResponse] at h; cases h
                exact Or.inr ⟨by decide, rfl⟩
              | str s2 =>
                rw [hkw] at h; dsimp only [excResponse] at h; cases h
                exact Or.inr ⟨by decide, rfl⟩
              | arr xs =>
                rw [hkw] at h; dsimp only [excResponse] at h; cases h
                exact Or.inr ⟨by decide, rfl⟩
        | null =>
          dsimp only [excResponse] at h; cases h
          exact Or.inr ⟨by decide, rfl⟩
        | bool b =>
          dsimp only [excResponse] at h; cases h
          exact Or.inr ⟨by decide, rfl⟩
        | num x =>
          dsimp only [excResponse] at h; cases h
          exact Or.inr ⟨by decide, rfl⟩
        | arr xs =>
          dsimp only [excResponse] at h; cases h
          exact Or.inr ⟨by decide, rfl⟩
        | obj fs2 =>
          dsimp only [excResponse] at h; cases h
          exact Or.inr ⟨by decide, rfl⟩
    | null => dsimp only at h; cases h; exact Or.inr ⟨by decide, rfl⟩
    | bool b => dsimp only at h; cases h; exact Or.inr ⟨by decide, rfl⟩
    | num x => dsimp only at h; cases h; exact Or.inr ⟨by decide, rfl⟩
    | str s2 => dsimp only at h; cases h; exact Or.inr ⟨by decide, rfl⟩
    | arr xs => dsimp only at h; cases h; exact Or.inr ⟨by decide, rfl⟩

/-- C4 (counterexample): an MCP-routed call whose dispatch returns no
response yields a 200 body whose `result` field is null, not an object
with a `content` array — refuting the claimed 200 shape. -/
theorem C4_mcp_null_result_breaks_shape :
    doPOST
      { mcpManagerPresent := true, mcpServes := fun t => t = "mcping",
        mcpDispatch := fun _ _ => none, internalImpl := fun _ => none }
      "/mcp_tool_call" "\x7b\"tool_name\": \"mcping\", \"arguments\": \x7b\x7d\x7d" =
      .response 200 (.obj [("status", .str "success"), ("result", .null)]) ∧
    specSuccessShape (.obj [("status", .str "success"), ("result", .null)]) = false := by
  exact ⟨rfl, rfl⟩

/-- C4 (amended): on the `/mcp_tool_call` route, every non-200 response
body has shape `{status: "error", type, message}`; every 200 body has
shape `{status: "success", result}`; and when the call is served by an
internal tool returning a plain value, the 200 `result` is the normalized
MCP-style envelope with a `content` array and an `isError` boolean — an
MCP-dispatched 200 instead carries the manager's result verbatim, which
may be null or lack a `content` array. -/
theorem C4_gateway_envelope_shapes :
    (∀ (env : GatewayEnv) (body : String) (code : Nat) (payload : Json),
      doPOST env "/mcp_tool_call" body = .response code payload → code ≠ 200 →
      specErrorShape payload = true) ∧
    (∀ (env : GatewayEnv) (body : String) (payload : Json),
      doPOST env "/mcp_tool_call" body = .response 200 payload →
      ∃ r, payload = .obj [("status", .str "success"), ("result", r)]) ∧
    (∀ (env : GatewayEnv) (body : String) (fields : List (String × Json)) (t : String)
        (kw : List (String × Json)) (impl : List (String × Json) → ImplOutcome) (raw : Json),
      jsonLoads body = .ok (.obj fields) →
      objGet fields "tool_name" = some (.str t) →
      (env.mcpManagerPresent && env.mcpServes t) = false →
      env.internalImpl t = some impl →
      objGet fields "arguments" = some (.obj kw) →
      impl kw = .ok raw →
      (∀ fs, raw = .obj fs → objHas fs "content" = false) →
      doPOST env "/mcp_tool_call" body =
        .response 200 (.obj [("status", .str "success"), ("result", normalizePlain raw)]) ∧
      specSuccessShape
        (.obj [("status", .str "success"), ("result", normalizePlain raw)]) = true) := by
  refine ⟨?_, ?_, ?_⟩
  · intro env body code payload h hcode
    rcases doPOST_response_forms env body code payload h with ⟨hc, -⟩ | ⟨-, hshape⟩
    · exact absurd hc hcode
    · exact hshape
  · intro env body payload h
    rcases doPOST_response_forms env body 200 payload h with ⟨-, r, hr⟩ | ⟨hc, -⟩
    · exact ⟨r, hr⟩
    · exact absurd rfl hc
  · intro env body fields t kw impl raw hjson hname hmcp himpl hargs hio hplain
    constructor
    · rw [doPOST]
      rw [if_neg (by simp), hjson]
      dsimp only
      rw [hname]
      dsimp only
      rw [hmcp]
      simp only [Bool.false_eq_true, if_false]
      rw [himpl]
      dsimp only
      rw [hargs]
      simp only [Option.getD_some]
      rw [hio]
      dsimp only
      cases raw with
      | obj fs =>
        dsimp only
        rw [hplain fs rfl]
        simp
      | null => rfl
      | bool b => rfl
      | num x => rfl
      | str s2 => rfl
      | arr xs => rfl
    · rfl

/-- C4 (witness): the amended claim's three parts at concrete requests —
the 404 of an unknown tool has the error shape, the counterexample's 200
has the success shape, and a plain internal string result is normalized
into the contentful envelope. -/
theorem C4_gateway_envelope_witness :
    specErrorShape
      (.obj [("status", .str "error"), ("type", .str "TOOL_NOT_FOUND"),
        ("message", .str ("Tool " ++ sq ++ "nope" ++ sq ++ " not found."))]) = true ∧
    (∃ r, (Json.obj [("status", .str "success"), ("result", .null)]) =
      .obj [("status", .str "success"), ("result", r)]) ∧
    doPOST
      { mcpManagerPresent := true, mcpServes := fun _ => false,
        mcpDispatch := fun _ _ => none,
        internalImpl := fun t => if t = "get_weather" then some getWeatherImpl else none }
      "/mcp_tool_call" "\x7b\"tool_name\": \"get_weather\", \"arguments\": \x7b\"city\": \"London\"\x7d\x7d" =
      .response 200 (.obj [("status", .str "success"),
        ("result", normalizePlain (.str "Weather in London: 12°C, cloudy."))]) :=
  ⟨C4_gateway_envelope_shapes.1
      { mcpManagerPresent := true, mcpServes := fun _ => false,
        mcpDispatch := fun _ _ => none, internalImpl := fun _ => none }
      "\x7b\"tool_name\": \"nope\", \"arguments\": \x7b\x7d\x7d" 404
      (.obj [("status", .str "error"), ("type", .str "TOOL_NOT_FOUND"),
        ("message", .str ("Tool " ++ sq ++ "nope" ++ sq ++ " not found."))])
      (by decide) (by decide),
   C4_gateway_envelope_shapes.2.1
      { mcpManagerPresent := true, mcpServes := fun t => t = "mcping",
        mcpDispatch := fun _ _ => none, internalImpl := fun _ => none }
      "\x7b\"tool_name\": \"mcping\", \"arguments\": \x7b\x7d\x7d"
      (.obj [("status", .str "success"), ("result", .null)]) (by decide),
   (C4_gateway_envelope_shapes.2.2
      { mcpManagerPresent := true, mcpServes := fun _ => false,
        mcpDispatch := fun _ _ => none,
        internalImpl := fun t => if t = "get_weather" then some getWeatherImpl else none }
      "\x7b\"tool_name\": \"get_weather\", \"arguments\": \x7b\"city\": \"London\"\x7d\x7d"
      [("tool_name", .str "get_weather"), ("arguments", .obj [("city", .str "London")])]
      "get_weather" [("city", .str "London")] getWeatherImpl
      (.str "Weather in London: 12°C, cloudy.")
      rfl rfl rfl rfl rfl rfl
      (by intro fs hfs; cases hfs)).1⟩

/-- C10: the gateway classifies an exception raised by the dispatched tool
implementation itself by its Python type alone — TypeError and ValueError
yield 400 INVALID_TOOL_ARGUMENTS, KeyError yields 404 TOOL_NOT_FOUND, any
other exception yields 500 TOOL_EXECUTION_ERROR. -/
theorem C10_gateway_classifies_by_exception_type :
    ∀ (env : GatewayEnv) (body : String) (fields : List (String × Json)) (t : String)
      (kw : List (String × Json)) (impl : List (String × Json) → ImplOutcome)
      (k : ExcKind) (msg : String),
      jsonLoads body = .ok (.obj fields) →
      objGet fields "tool_name" = some (.str t) →
      (env.mcpManagerPresent && env.mcpServes t) = false →
      env.internalImpl t = some impl →
      objGet fields "arguments" = some (.obj kw) →
      impl kw = .raises k msg →
      doPOST env "/mcp_tool_call" body =
        (match k with
         | .typeError | .valueError =>
           .response 400 (.obj [("status", .str "error"),
             ("type", .str "INVALID_TOOL_ARGUMENTS"),
             ("message", .str ("Invalid arguments for " ++ sq ++ t ++ sq ++ ": " ++ msg))])
         | .keyError =>
           .response 404 (.obj [("status", .str "error"), ("type", .str "TOOL_NOT_FOUND"),
             ("message", .str ("Tool " ++ sq ++ t ++ sq ++ " not found."))])
         | .other =>
           .response 500 (.obj [("status", .str "error"),
             ("type", .str "TOOL_EXECUTION_ERROR"), ("message", .str msg)])) := by
  intro env body fields t kw impl k msg hjson hname hmcp himpl hargs hio
  rw [doPOST]
  rw [if_neg (by simp), hjson]
  dsimp only
  rw [hname]
  dsimp only
  rw [hmcp]
  simp only [Bool.false_eq_true, if_false]
  rw [himpl]
  dsimp only
  rw [hargs]
  simp only [Option.getD_some]
  rw [hio]
  cases k <;> rfl

/-- C10 (witness): `get_weather` raising ValueError for an unsupported
city — not an argument-shape problem — is still answered 400
INVALID_TOOL_ARGUMENTS, because only the exception type is inspected. -/
theorem C10_gateway_classification_witness :
    doPOST
      { mcpManagerPresent := true, mcpServes := fun _ => false,
        mcpDispatch := fun _ _ => none,
        internalImpl := fun t => if t = "get_weather" then some getWeatherImpl else none }
      "/mcp_tool_call" "\x7b\"tool_name\": \"get_weather\", \"arguments\": \x7b\"city\": \"Paris\"\x7d\x7d" =
      .response 400 (.obj [("status", .str "error"),
        ("type", .str "INVALID_TOOL_ARGUMENTS"),
        ("message", .str ("Invalid arguments for " ++ sq ++ "get_weather" ++ sq ++ ": " ++
          "Weather information for Paris is not available."))]) :=
  C10_gateway_classifies_by_exception_type
    { mcpManagerPresent := true, mcpServes := fun _ => false,
      mcpDispatch := fun _ _ => none,
      internalImpl := fun t => if t = "get_weather" then some getWeatherImpl else none }
    "\x7b\"tool_name\": \"get_weather\", \"arguments\": \x7b\"city\": \"Paris\"\x7d\x7d"
    [("tool_name", .str "get_weather"), ("arguments", .obj [("city", .str "Paris")])]
    "get_weather" [("city", .str "Paris")] getWeatherImpl .valueError
    "Weather information for Paris is not available."
    rfl rfl rfl rfl rfl rfl

/-!
Section: Claim C6 — reload and the name-to-server map
-/

theorem json_beq_eq_decide (a b : Json) : (a == b) = decide (a = b) := by
  cases hbeq : a == b with
  | true => rw [eq_comm, decide_eq_true_eq]; exact eq_of_beq hbeq
  | false =>
    rw [eq_comm, decide_eq_false_iff_not]
    intro hab
    rw [hab] at hbeq
    simp at hbeq

/-- Key membership after a Python dict assignment. -/
theorem mapLookup_insertOverwrite_isSome (m : List (Json × String)) (k0 : Json) (v : String)
    (k : Json) :
    (mapLookup (insertOverwrite m k0 v) k).isSome = ((k0 == k) || (mapLookup m k).isSome) := by
  induction m with
  | nil =>
    rw [insertOverwrite, mapLookup]
    cases hbeq : k0 == k <;> simp [hbeq, mapLookup]
  | cons kv rest ih =>
    obtain ⟨a, b⟩ := kv
    by_cases h1 : a = k0
    · subst h1
      by_cases h2 : a = k
      · subst h2
        simp [insertOverwrite, mapLookup, json_beq_eq_decide]
      · simp [insertOverwrite, mapLookup, json_beq_eq_decide, h2]
    · by_cases h2 : a = k
      · subst h2
        simp [insertOverwrite, mapLookup, json_beq_eq_decide, h1]
      · simp [insertOverwrite, mapLookup, json_beq_eq_decide, h1, h2, ih]

/-- Discovery of one server's tools adds exactly its patched names to the
map. -/
theorem fetchIntoMap_isSome (patches : List (String × List (String × Json)))
    (sname : String) :
    ∀ (tools : List Json) (m m2 : List (Json × String)) (ks : List Json),
      fetchIntoMap patches sname tools m = .ok m2 →
      patchedToolNames patches tools = .ok ks →
      ∀ k, (mapLookup m2 k).isSome =
        (ks.any (fun n => n == k) || (mapLookup m k).isSome) := by
  intro tools
  induction tools with
  | nil =>
    intro m m2 ks hf hn k
    rw [fetchIntoMap] at hf
    rw [patchedToolNames] at hn
    simp only [Except.ok.injEq] at hf hn
    subst hf; subst hn
    simp
  | cons tool rest ih =>
    intro m m2 ks hf hn k
    rw [fetchIntoMap] at hf
    rw [patchedToolNames] at hn
    rw [except_bind_ok] at hf hn
    obtain ⟨p1, hp1, hf⟩ := hf
    obtain ⟨p2, hp2, hn⟩ := hn
    rw [hp1] at hp2
    obtain rfl := (Except.ok.inj hp2)
    rw [except_bind_ok] at hf hn
    obtain ⟨key1, hk1, hf⟩ := hf
    obtain ⟨key2, hk2, hn⟩ := hn
    rw [hk1] at hk2
    obtain rfl := (Except.ok.inj hk2)
    rw [except_bind_ok] at hn
    obtain ⟨more, hmore, hn⟩ := hn
    simp only [Except.ok.injEq] at hn
    subst hn
    have := ih (insertOverwrite m key1 sname) m2 more hf hmore k
    rw [this, mapLookup_insertOverwrite_isSome]
    simp [List.any_cons, Bool.or_assoc, Bool.or_comm, Bool.or_left_comm]

/-- The server walk adds exactly the published names of the walked
servers. -/
theorem startupMapGo_isSome (patches : List (String × List (String × Json)))
    (world : String → ServerRuntime) :
    ∀ (names : List String) (m m2 : List (Json × String)) (ns : List Json),
      startupMapGo patches world names m = .ok m2 →
      publishedNamesGo patches world names = .ok ns →
      ∀ k, (mapLookup m2 k).isSome =
        (ns.any (fun n => n == k) || (mapLookup m k).isSome) := by
  intro names
  induction names with
  | nil =>
    intro m m2 ns hs hp k
    rw [startupMapGo] at hs
    rw [publishedNamesGo] at hp
    simp only [Except.ok.injEq] at hs hp
    subst hs; subst hp
    simp
  | cons name rest ih =>
    intro m m2 ns hs hp k
    rw [startupMapGo] at hs
    rw [publishedNamesGo] at hp
    (try dsimp only at hs hp)
    by_cases hq : ((world name).started && (world name).initOk && (world name).capsTools) = true
    · rw [if_pos hq] at hs hp
      rw [except_bind_ok] at hs hp
      obtain ⟨mmid, hmid, hs⟩ := hs
      obtain ⟨ks, hks, hp⟩ := hp
      rw [except_bind_ok] at hp
      obtain ⟨more, hmore, hp⟩ := hp
      simp only [Except.ok.injEq] at hp
      subst hp
      have h1 := ih mmid m2 more hs hmore k
      have h2 := fetchIntoMap_isSome patches name (world name).tools m mmid ks hmid hks k
      rw [h1, h2]
      simp [List.any_append, Bool.or_assoc, Bool.or_comm, Bool.or_left_comm]
    · rw [if_neg hq] at hs hp
      exact ih m m2 ns hs hp k

/-- C6: after a Reload, the name-to-server map contains exactly the tool
names published by the servers of the new configuration; the map held
before the reload — in particular every previously published name that is
not re-published — plays no part in the result. -/
theorem C6_reload_map_matches_new_config :
    ∀ (oldMap : List (Json × String)) (cfg : MCPConfig) (world : String → ServerRuntime)
      (m : List (Json × String)) (ns : List Json),
      reloadMCP oldMap cfg world = .ok m →
      publishedNames cfg world = .ok ns →
      ∀ k, (mapLookup m k).isSome = ns.any (fun n => n == k) := by
  intro oldMap cfg world m ns hr hp k
  rw [reloadMCP, startupMap] at hr
  rw [publishedNames] at hp
  have := startupMapGo_isSome cfg.toolPatches world cfg.serverNames [] m ns hr hp k
  simpa [mapLookup] using this

/-- C6 (witness): a reload against a one-server configuration whose patch
renames `fetch` to `fetch2` — the old map entry `old_tool` is gone, the
renamed tool is present. -/
theorem C6_reload_map_witness :
    (mapLookup
      [(Json.str "fetch2", "s1"), (Json.str "ping", "s1")] (Json.str "fetch2")).isSome =
      ([Json.str "fetch2", Json.str "ping"].any (fun n => n == Json.str "fetch2")) ∧
    (mapLookup
      [(Json.str "fetch2", "s1"), (Json.str "ping", "s1")] (Json.str "old_tool")).isSome =
      ([Json.str "fetch2", Json.str "ping"].any (fun n => n == Json.str "old_tool")) :=
  ⟨C6_reload_map_matches_new_config [(Json.str "old_tool", "oldsrv")]
      { serverNames := ["s1", "s2"], toolPatches := [("fetch", [("name", Json.str "fetch2")])] }
      (fun n =>
        if n = "s1" then
          { started := true, initOk := true, capsTools := true,
            tools := [Json.obj [("name", Json.str "fetch")], Json.obj [("name", Json.str "ping")]] }
        else { started := false, initOk := false, capsTools := false, tools := [] })
      [(Json.str "fetch2", "s1"), (Json.str "ping", "s1")]
      [Json.str "fetch2", Json.str "ping"] rfl rfl (Json.str "fetch2"),
   C6_reload_map_matches_new_config [(Json.str "old_tool", "oldsrv")]
      { serverNames := ["s1", "s2"], toolPatches := [("fetch", [("name", Json.str "fetch2")])] }
      (fun n =>
        if n = "s1" then
          { started := true, initOk := true, capsTools := true,
            tools := [Json.obj [("name", Json.str "fetch")], Json.obj [("name", Json.str "ping")]] }
        else { started := false, initOk := false, capsTools := false, tools := [] })
      [(Json.str "fetch2", "s1"), (Json.str "ping", "s1")]
      [Json.str "fetch2", Json.str "ping"] rfl rfl (Json.str "old_tool")⟩

/-!
Section: Claim C7 — idempotence of the dependency pre-processor
-/

/-- C7: at the source text
`# dependencies = ["requests"]\nx = [1]\n# ///` the pre-processor is NOT
idempotent: the first application emits the canonical fenced block with
the `requests` dependency, but the second application deletes the block
(the DOTALL search of line 63 greedily spans to the last bracket so its
array fails to parse, while the flagless substitution of line 72 removes
the fence) and returns only the code body — the dependency declaration is
lost, contradicting spec property 6. -/
theorem C7_process_tool_code_not_idempotent :
    process_tool_code "# dependencies = [\"requests\"]\nx = [1]\n# ///" =
      "# /// script\n# dependencies = [\"requests\"]\n# ///\nx = [1]\n# ///" ∧
    process_tool_code (process_tool_code "# dependencies = [\"requests\"]\nx = [1]\n# ///") =
      "x = [1]\n# ///" ∧
    process_tool_code (process_tool_code "# dependencies = [\"requests\"]\nx = [1]\n# ///") ≠
      process_tool_code "# dependencies = [\"requests\"]\nx = [1]\n# ///" := by
  refine ⟨rfl, rfl, by decide⟩

end Chatty
